import Mathlib

/-!
Verification development for the aerohack meeting-secretary pipeline.

The Python sources are shallowly embedded as Lean definitions:

* `src/weeek_integration.py` — due-date normalisation (`parse_due_date`),
  task publication (`create_tasks_from_analysis` and its helpers);
* `src/openai_analyzer.py` — the `MeetingAnalysis` record, transcript
  analysis (`analyze_transcript`) and validation (`validate_analysis`);
* `src/meeting_secretary.py` — the orchestrator (`process_meeting_audio`);
* `src/create_protocol.py` — placeholder substitution (`replace_placeholders`).

External effects (HTTP calls to Weeek, the OpenAI chat request, vosk
transcription) are modelled as oracles supplied through environment records;
everything the repository computes itself is translated directly.
-/

namespace Aerohack

/-! ## Python string primitives -/

/-- Whitespace characters recognised by Python `str.strip` (the ASCII ones
plus the Unicode space characters). -/
def isPySpace (c : Char) : Bool :=
  c = ' ' || c = '\t' || c = '\n' || c = '\r' ||
  c.toNat = 11 || c.toNat = 12 ||
  c.toNat = 0x1c || c.toNat = 0x1d || c.toNat = 0x1e || c.toNat = 0x1f ||
  c.toNat = 0x85 || c.toNat = 0xa0 || c.toNat = 0x1680 ||
  (0x2000 ≤ c.toNat && c.toNat ≤ 0x200a) ||
  c.toNat = 0x2028 || c.toNat = 0x2029 ||
  c.toNat = 0x202f || c.toNat = 0x205f || c.toNat = 0x3000

/-- Python `str.strip()`: remove whitespace from both ends. -/
def pyStrip (s : String) : String :=
  (((s.toList.dropWhile isPySpace).reverse.dropWhile isPySpace).reverse).asString

/-- Python `str.lower()` on the alphabets that occur in this code base
(ASCII letters and the Cyrillic block). -/
def pyLowerChar (c : Char) : Char :=
  if 65 ≤ c.toNat && c.toNat ≤ 90 then Char.ofNat (c.toNat + 32)
  else if 0x410 ≤ c.toNat && c.toNat ≤ 0x42F then Char.ofNat (c.toNat + 0x20)
  else if c.toNat = 0x401 then Char.ofNat 0x451
  else c

def pyLower (s : String) : String :=
  (s.toList.map pyLowerChar).asString

/-- Does `pre` occur at the start of the second list? -/
def startsWithCs : List Char → List Char → Bool
  | [], _ => true
  | _ :: _, [] => false
  | a :: as, b :: bs => a = b && startsWithCs as bs

/-- Does `needle` occur somewhere inside the second list? -/
def infixOfCs (needle : List Char) : List Char → Bool
  | [] => startsWithCs needle []
  | c :: cs => startsWithCs needle (c :: cs) || infixOfCs needle cs

/-- Python `needle in hay` on strings. -/
def pyContains (hay needle : String) : Bool :=
  infixOfCs needle.toList hay.toList

/-! ## Decimal digits and zero-padded formatting (`strftime`) -/

def digitChar (n : Nat) : Char := Char.ofNat (48 + n)

def toDigit (c : Char) : Nat := c.toNat - 48

def isDigitCh (c : Char) : Bool := 48 ≤ c.toNat && c.toNat ≤ 57

/-- Two-digit zero-padded decimal (`%m`, `%d` in `strftime`). -/
def pad2 (n : Nat) : List Char := [digitChar (n / 10 % 10), digitChar (n % 10)]

/-- Four-digit zero-padded decimal (`%Y` in `strftime`). -/
def pad4 (n : Nat) : List Char :=
  [digitChar (n / 1000 % 10), digitChar (n / 100 % 10),
   digitChar (n / 10 % 10), digitChar (n % 10)]

/-! ## Dates (`datetime.date`, `timedelta`) -/

def isLeapYear (y : Nat) : Bool :=
  y % 4 = 0 && (y % 100 ≠ 0 || y % 400 = 0)

def daysInMonth (y m : Nat) : Nat :=
  if m = 2 then (if isLeapYear y then 29 else 28)
  else if m = 4 ∨ m = 6 ∨ m = 9 ∨ m = 11 then 30
  else 31

structure Date where
  year : Nat
  month : Nat
  day : Nat
deriving DecidableEq

/-- `datetime.date(y, m, d)`: validates the components, `None` models the
`ValueError` raised on out-of-range input. -/
def mkValidDate (y m d : Nat) : Option Date :=
  if 1 ≤ y ∧ y ≤ 9999 ∧ 1 ≤ m ∧ m ≤ 12 ∧ 1 ≤ d ∧ d ≤ daysInMonth y m then
    some ⟨y, m, d⟩
  else none

/-- Advance a date by one calendar day. -/
def nextDay (dt : Date) : Date :=
  if dt.day < daysInMonth dt.year dt.month then ⟨dt.year, dt.month, dt.day + 1⟩
  else if dt.month < 12 then ⟨dt.year, dt.month + 1, 1⟩
  else ⟨dt.year + 1, 1, 1⟩

/-- `date + timedelta(days = n)`: calendar-day arithmetic. -/
def addDays (dt : Date) : Nat → Date
  | 0 => dt
  | n + 1 => nextDay (addDays dt n)

/-- `strftime('%Y-%m-%d')`. -/
def formatDate (dt : Date) : String :=
  (pad4 dt.year ++ '-' :: (pad2 dt.month ++ '-' :: pad2 dt.day)).asString

/-! ## `strptime` for the three formats used by `parse_due_date`

CPython compiles `%Y` to the regex `\d\d\d\d`, `%m` to `1[0-2]|0[1-9]|[1-9]`
and `%d` to `3[01]|[12]\d|0[1-9]|[1-9]`, requires the full string to be
consumed, and finally validates the components through `datetime.date`.
Because the delimiters of the three formats are never digits, the greedy
deterministic readers below decide exactly the same language. -/

def parseYear4 : List Char → Option (Nat × List Char)
  | a :: b :: c :: d :: rest =>
    if isDigitCh a && isDigitCh b && isDigitCh c && isDigitCh d then
      some (((toDigit a * 10 + toDigit b) * 10 + toDigit c) * 10 + toDigit d, rest)
    else none
  | _ => none

def parseMonth : List Char → Option (Nat × List Char)
  | c1 :: c2 :: rest =>
    if c1 = '1' && (c2 = '0' || c2 = '1' || c2 = '2') then
      some (10 + toDigit c2, rest)
    else if c1 = '0' && (isDigitCh c2 && c2 ≠ '0') then
      some (toDigit c2, rest)
    else if isDigitCh c1 && c1 ≠ '0' then
      some (toDigit c1, c2 :: rest)
    else none
  | [c1] => if isDigitCh c1 && c1 ≠ '0' then some (toDigit c1, []) else none
  | [] => none

def parseDay : List Char → Option (Nat × List Char)
  | c1 :: c2 :: rest =>
    if c1 = '3' && (c2 = '0' || c2 = '1') then
      some (30 + toDigit c2, rest)
    else if (c1 = '1' || c1 = '2') && isDigitCh c2 then
      some (toDigit c1 * 10 + toDigit c2, rest)
    else if c1 = '0' && (isDigitCh c2 && c2 ≠ '0') then
      some (toDigit c2, rest)
    else if isDigitCh c1 && c1 ≠ '0' then
      some (toDigit c1, c2 :: rest)
    else none
  | [c1] => if isDigitCh c1 && c1 ≠ '0' then some (toDigit c1, []) else none
  | [] => none

/-- `datetime.strptime(s, '%Y-%m-%d')`, `None` modelling `ValueError`. -/
def pyStrptimeYMD (s : String) : Option Date :=
  match parseYear4 s.toList with
  | some (y, '-' :: r1) =>
    match parseMonth r1 with
    | some (m, '-' :: r2) =>
      match parseDay r2 with
      | some (d, []) => mkValidDate y m d
      | _ => none
    | _ => none
  | _ => none

/-- `datetime.strptime(s, '%d<sep>%m<sep>%Y')` for `sep` `'.'` or `'/'`. -/
def pyStrptimeDMY (sep : Char) (s : String) : Option Date :=
  match parseDay s.toList with
  | some (d, c1 :: r1) =>
    if c1 = sep then
      match parseMonth r1 with
      | some (m, c2 :: r2) =>
        if c2 = sep then
          match parseYear4 r2 with
          | some (y, []) => mkValidDate y m d
          | _ => none
        else none
      | _ => none
    else none
  | _ => none

/-! ## `WeeekIntegration.parse_due_date` -/

/-- The `relative_dates` table, in insertion order. -/
def relativeDates : List (String × Nat) :=
  [("завтра", 1), ("послезавтра", 2), ("через неделю", 7),
   ("через две недели", 14), ("через месяц", 30)]

/-- The relative-phrase loop: first phrase occurring as a substring wins. -/
def findRelative (today : Date) (lowered : String) :
    List (String × Nat) → Option String
  | [] => none
  | (phrase, days) :: rest =>
    if pyContains lowered phrase then some (formatDate (addDays today days))
    else findRelative today lowered rest

/-- `WeeekIntegration.parse_due_date`, with `datetime.now()` passed in as
`today`.  Returns the normalised `YYYY-MM-DD` string or `None`. -/
def parse_due_date (today : Date) (date_string : String) : Option String :=
  if date_string = "" || date_string = "Не указан" then none
  else
    match pyStrptimeYMD date_string with
    | some dt => some (formatDate dt)
    | none =>
      match pyStrptimeDMY '.' date_string with
      | some dt => some (formatDate dt)
      | none =>
        match pyStrptimeDMY '/' date_string with
        | some dt => some (formatDate dt)
        | none => findRelative today (pyLower date_string) relativeDates

/-- Shape of a `DD<sep>MM<sep>YYYY` input string (zero-padded components). -/
def formatDMY (sep : Char) (dt : Date) : String :=
  (pad2 dt.day ++ sep :: (pad2 dt.month ++ sep :: pad4 dt.year)).asString

/-! ### Lemmas about digits, padding and the `strptime` readers -/

theorem isDigitCh_digitChar : ∀ n < 10, isDigitCh (digitChar n) = true := by decide

theorem toDigit_digitChar : ∀ n < 10, toDigit (digitChar n) = n := by decide

theorem parseYear4_pad4 {y : Nat} (hy : y ≤ 9999) (r : List Char) :
    parseYear4 (pad4 y ++ r) = some (y, r) := by
  have h1 : y / 1000 % 10 < 10 := Nat.mod_lt _ (by norm_num)
  have h2 : y / 100 % 10 < 10 := Nat.mod_lt _ (by norm_num)
  have h3 : y / 10 % 10 < 10 := Nat.mod_lt _ (by norm_num)
  have h4 : y % 10 < 10 := Nat.mod_lt _ (by norm_num)
  simp only [pad4, List.cons_append, List.nil_append, parseYear4,
    isDigitCh_digitChar _ h1, isDigitCh_digitChar _ h2, isDigitCh_digitChar _ h3,
    isDigitCh_digitChar _ h4, Bool.and_self, if_true,
    toDigit_digitChar _ h1, toDigit_digitChar _ h2, toDigit_digitChar _ h3,
    toDigit_digitChar _ h4, Option.some.injEq, Prod.mk.injEq, and_true]
  omega

theorem parseMonth_pad2 : ∀ m, 1 ≤ m → m ≤ 12 →
    ∀ r : List Char, parseMonth (pad2 m ++ r) = some (m, r) := by
  intro m h1 h2 r
  interval_cases m <;> rfl

theorem parseDay_pad2 : ∀ d, 1 ≤ d → d ≤ 31 →
    ∀ r : List Char, parseDay (pad2 d ++ r) = some (d, r) := by
  intro d h1 h2 r
  interval_cases d <;> rfl

theorem parseYear4_notDigit3 {a b : Nat} {c : Char}
    (hc : isDigitCh c = false) (r : List Char) :
    parseYear4 (digitChar a :: digitChar b :: c :: r) = none := by
  cases r with
  | nil => rfl
  | cons x xs => simp [parseYear4, hc]

theorem length_formatDate (dt : Date) : (formatDate dt).length = 10 := by
  simp [formatDate, List.asString, String.length, pad4, pad2]

theorem length_formatDMY (sep : Char) (dt : Date) : (formatDMY sep dt).length = 10 := by
  simp [formatDMY, List.asString, String.length, pad4, pad2]

theorem ne_of_length_ne {s t : String} (h : s.length ≠ t.length) : s ≠ t := by
  intro he; exact h (he ▸ rfl)

theorem formatDate_ne_empty (dt : Date) : formatDate dt ≠ "" :=
  ne_of_length_ne (by rw [length_formatDate]; decide)

theorem formatDate_ne_sentinel (dt : Date) : formatDate dt ≠ "Не указан" :=
  ne_of_length_ne (by rw [length_formatDate]; decide)

theorem formatDMY_ne_empty (sep : Char) (dt : Date) : formatDMY sep dt ≠ "" :=
  ne_of_length_ne (by rw [length_formatDMY]; decide)

theorem formatDMY_ne_sentinel (sep : Char) (dt : Date) : formatDMY sep dt ≠ "Не указан" :=
  ne_of_length_ne (by rw [length_formatDMY]; decide)

/-- A valid, four-digit-year date survives the `%Y-%m-%d` round trip. -/
theorem pyStrptimeYMD_formatDate {y m d : Nat} (hy4 : 1000 ≤ y) (hy : y ≤ 9999)
    (hm1 : 1 ≤ m) (hm2 : m ≤ 12) (hd1 : 1 ≤ d) (hd2 : d ≤ daysInMonth y m) :
    pyStrptimeYMD (formatDate ⟨y, m, d⟩) = some ⟨y, m, d⟩ := by
  have hlist : (formatDate ⟨y, m, d⟩).toList
      = pad4 y ++ '-' :: (pad2 m ++ '-' :: pad2 d) := rfl
  have hd31 : d ≤ 31 := by
    refine hd2.trans ?_
    simp only [daysInMonth]
    split <;> try split
    all_goals omega
  have hday : parseDay (pad2 d) = some (d, []) := by
    have := parseDay_pad2 d hd1 hd31 []
    rwa [List.append_nil] at this
  simp only [pyStrptimeYMD, hlist, parseYear4_pad4 hy, parseMonth_pad2 m hm1 hm2,
    hday, mkValidDate]
  rw [if_pos ⟨by omega, hy, hm1, hm2, hd1, hd2⟩]

/-- `%Y-%m-%d` rejects a `DD<sep>MM<sep>YYYY` string (third character is the
non-digit separator). -/
theorem pyStrptimeYMD_formatDMY {sep : Char} (hsep : isDigitCh sep = false)
    (dt : Date) : pyStrptimeYMD (formatDMY sep dt) = none := by
  have hlist : (formatDMY sep dt).toList
      = digitChar (dt.day / 10 % 10) :: digitChar (dt.day % 10) :: sep ::
        (pad2 dt.month ++ sep :: pad4 dt.year) := rfl
  rw [pyStrptimeYMD, hlist, parseYear4_notDigit3 hsep]

/-- A valid, four-digit-year date survives the `%d<sep>%m<sep>%Y` round trip. -/
theorem pyStrptimeDMY_formatDMY {sep : Char}
    {y m d : Nat} (hy4 : 1000 ≤ y) (hy : y ≤ 9999)
    (hm1 : 1 ≤ m) (hm2 : m ≤ 12) (hd1 : 1 ≤ d) (hd2 : d ≤ daysInMonth y m) :
    pyStrptimeDMY sep (formatDMY sep ⟨y, m, d⟩) = some ⟨y, m, d⟩ := by
  have hlist : (formatDMY sep ⟨y, m, d⟩).toList
      = pad2 d ++ sep :: (pad2 m ++ sep :: pad4 y) := rfl
  have hd31 : d ≤ 31 := by
    refine hd2.trans ?_
    simp only [daysInMonth]
    split <;> try split
    all_goals omega
  have hyear : parseYear4 (pad4 y) = some (y, []) := by
    have := parseYear4_pad4 hy ([] : List Char)
    rwa [List.append_nil] at this
  simp only [pyStrptimeDMY, hlist, parseDay_pad2 d hd1 hd31, eq_self_iff_true,
    if_true, parseMonth_pad2 m hm1 hm2, hyear, mkValidDate]
  rw [if_pos ⟨by omega, hy, hm1, hm2, hd1, hd2⟩]

/-- `%d.%m.%Y` rejects a slash-separated string at the first separator. -/
theorem pyStrptimeDMYdot_slash {y m d : Nat} (hd1 : 1 ≤ d) (hd2 : d ≤ 31) :
    pyStrptimeDMY '.' (formatDMY '/' ⟨y, m, d⟩) = none := by
  have hlist : (formatDMY '/' ⟨y, m, d⟩).toList
      = pad2 d ++ '/' :: (pad2 m ++ '/' :: pad4 y) := rfl
  rw [pyStrptimeDMY, hlist, parseDay_pad2 d hd1 hd2]
  rfl

theorem findRelative_none {today : Date} {lowered : String}
    {l : List (String × Nat)} (h : ∀ p ∈ l, pyContains lowered p.1 = false) :
    findRelative today lowered l = none := by
  induction l with
  | nil => rfl
  | cons p rest ih =>
    obtain ⟨phrase, days⟩ := p
    have hp : pyContains lowered phrase = false := h (phrase, days) (by simp)
    rw [findRelative, hp]
    simpa using ih fun q hq => h q (List.mem_cons_of_mem _ hq)

/-- C7: `parse_due_date` maps an ISO `YYYY-MM-DD` input to itself, converts
`DD.MM.YYYY` and `DD/MM/YYYY` inputs to ISO form, maps the relative phrases
to today + 1 / + 7 / + 14 / + 30 by calendar-day arithmetic, and maps the
"Не указан" sentinel and any unparseable string to `none`. -/
theorem parse_due_date_normalizes :
    (∀ (today : Date) (y m d : Nat), 1000 ≤ y → y ≤ 9999 → 1 ≤ m → m ≤ 12 →
      1 ≤ d → d ≤ daysInMonth y m →
      parse_due_date today (formatDate ⟨y, m, d⟩) = some (formatDate ⟨y, m, d⟩) ∧
      parse_due_date today (formatDMY '.' ⟨y, m, d⟩) = some (formatDate ⟨y, m, d⟩) ∧
      parse_due_date today (formatDMY '/' ⟨y, m, d⟩) = some (formatDate ⟨y, m, d⟩)) ∧
    (∀ today : Date,
      parse_due_date today "завтра" = some (formatDate (addDays today 1)) ∧
      parse_due_date today "через неделю" = some (formatDate (addDays today 7)) ∧
      parse_due_date today "через две недели" = some (formatDate (addDays today 14)) ∧
      parse_due_date today "через месяц" = some (formatDate (addDays today 30)) ∧
      parse_due_date today "Не указан" = none ∧
      parse_due_date today "" = none) ∧
    (∀ (today : Date) (s : String),
      pyStrptimeYMD s = none → pyStrptimeDMY '.' s = none →
      pyStrptimeDMY '/' s = none →
      (∀ p ∈ relativeDates, pyContains (pyLower s) p.1 = false) →
      parse_due_date today s = none) := by
  refine ⟨?_, ?_, ?_⟩
  · intro today y m d hy4 hy hm1 hm2 hd1 hd2
    have hd31 : d ≤ 31 := by
      refine hd2.trans ?_
      simp only [daysInMonth]
      split <;> try split
      all_goals omega
    refine ⟨?_, ?_, ?_⟩
    · rw [parse_due_date, if_neg, pyStrptimeYMD_formatDate hy4 hy hm1 hm2 hd1 hd2]
      simp only [decide_eq_false (formatDate_ne_empty _),
        decide_eq_false (formatDate_ne_sentinel _), Bool.or_self, Bool.false_eq_true,
        not_false_eq_true]
    · rw [parse_due_date, if_neg, pyStrptimeYMD_formatDMY (by decide) _,
        pyStrptimeDMY_formatDMY hy4 hy hm1 hm2 hd1 hd2]
      simp only [decide_eq_false (formatDMY_ne_empty _ _),
        decide_eq_false (formatDMY_ne_sentinel _ _), Bool.or_self, Bool.false_eq_true,
        not_false_eq_true]
    · rw [parse_due_date, if_neg, pyStrptimeYMD_formatDMY (by decide) _,
        pyStrptimeDMYdot_slash hd1 hd31,
        pyStrptimeDMY_formatDMY hy4 hy hm1 hm2 hd1 hd2]
      simp only [decide_eq_false (formatDMY_ne_empty _ _),
        decide_eq_false (formatDMY_ne_sentinel _ _), Bool.or_self, Bool.false_eq_true,
        not_false_eq_true]
  · intro today
    exact ⟨rfl, rfl, rfl, rfl, rfl, rfl⟩
  · intro today s h1 h2 h3 hrel
    rw [parse_due_date]
    split
    · rfl
    · rw [h1, h2, h3]
      exact findRelative_none hrel

/-- Witness for C7 at concrete inputs. -/
theorem parse_due_date_normalizes_witness :
    parse_due_date ⟨2026, 10, 12⟩ "2024-01-15" = some "2024-01-15" ∧
    parse_due_date ⟨2026, 10, 12⟩ "15.01.2024" = some "2024-01-15" ∧
    parse_due_date ⟨2026, 10, 12⟩ "15/01/2024" = some "2024-01-15" ∧
    parse_due_date ⟨2026, 10, 12⟩ "завтра" = some "2026-10-13" ∧
    parse_due_date ⟨2026, 10, 12⟩ "какой-то срок" = none := by
  have h := parse_due_date_normalizes
  have h1 := h.1 ⟨2026, 10, 12⟩ 2024 1 15 (by norm_num) (by norm_num) (by norm_num)
    (by norm_num) (by norm_num) (by decide)
  have h2 := h.2.1 ⟨2026, 10, 12⟩
  have h3 := h.2.2 ⟨2026, 10, 12⟩ "какой-то срок" (by decide) (by decide) (by decide)
    (by decide)
  have e1 : formatDate ⟨2024, 1, 15⟩ = "2024-01-15" := by decide
  have e2 : formatDMY '.' ⟨2024, 1, 15⟩ = "15.01.2024" := by decide
  have e3 : formatDMY '/' ⟨2024, 1, 15⟩ = "15/01/2024" := by decide
  have e4 : formatDate (addDays ⟨2026, 10, 12⟩ 1) = "2026-10-13" := by decide
  obtain ⟨ha, hb, hc⟩ := h1
  rw [e1] at ha
  rw [e2, e1] at hb
  rw [e3, e1] at hc
  have hd := h2.1
  rw [e4] at hd
  exact ⟨ha, hb, hc, hd, h3⟩

/-- C8: any input that fails the three explicit formats but contains the
substring "завтра" — in particular "послезавтра", whose table entry is
+2 days — normalises to today + 1 day, because the relative-phrase table is
scanned in insertion order with substring matching and "завтра" matches
first. -/
theorem parse_due_date_zavtra_shadows :
    (∀ (today : Date) (s : String),
      pyStrptimeYMD s = none → pyStrptimeDMY '.' s = none →
      pyStrptimeDMY '/' s = none →
      pyContains (pyLower s) "завтра" = true →
      parse_due_date today s = some (formatDate (addDays today 1))) ∧
    (∀ today : Date,
      parse_due_date today "послезавтра" = some (formatDate (addDays today 1))) ∧
    ("послезавтра", 2) ∈ relativeDates := by
  refine ⟨?_, fun today => rfl, by decide⟩
  intro today s h1 h2 h3 hc
  have hne : ¬(s = "" ∨ s = "Не указан") := by
    rintro (rfl | rfl) <;> revert hc <;> decide
  rw [parse_due_date, if_neg, h1, h2, h3]
  · rw [show relativeDates = ("завтра", 1) :: relativeDates.tail from rfl,
      findRelative, if_pos hc]
  · simp only [Bool.or_eq_true, decide_eq_true_eq]
    exact fun hor => hne hor

/-- Witness for C8: "послезавтра" at a concrete date. -/
theorem parse_due_date_zavtra_shadows_witness :
    parse_due_date ⟨2026, 10, 12⟩ "послезавтра" = some "2026-10-13" := by
  have h := parse_due_date_zavtra_shadows.1 ⟨2026, 10, 12⟩ "послезавтра"
    (by decide) (by decide) (by decide) (by decide)
  have e : formatDate (addDays ⟨2026, 10, 12⟩ 1) = "2026-10-13" := by decide
  rwa [e] at h

/-! ## Python values, dicts and duck-typed attribute access -/

/-- A Python dict with string keys and string values (task and hypothesis
entries). -/
abbrev PyDict := List (String × String)

/-- `d.get(key)`. -/
def dGet : PyDict → String → Option String
  | [], _ => none
  | (k, v) :: rest, key => if k = key then some v else dGet rest key

/-- `d.get(key, default)`. -/
def dGetD (d : PyDict) (key dflt : String) : String := (dGet d key).getD dflt

/-- An element of a `MeetingAnalysis` list field: a string or a dict. -/
inductive PyV where
  | str : String → PyV
  | dict : PyDict → PyV
deriving DecidableEq

/-- An attribute value of the analysis object: a string or a list. -/
inductive Value where
  | vStr : String → Value
  | vList : List PyV → Value
deriving DecidableEq

/-- The attribute table of a Python object (duck typing). -/
abbrev PyObj := List (String × Value)

def pylookup : PyObj → String → Option Value
  | [], _ => none
  | (k, v) :: rest, key => if k = key then some v else pylookup rest key

/-- `getattr(obj, name)`: `AttributeError` when the attribute is absent. -/
def pygetattr (o : PyObj) (name : String) : Except String Value :=
  match pylookup o name with
  | some v => .ok v
  | none => .error ("AttributeError: no attribute " ++ name)

/-- `hasattr(obj, name)`. -/
def pyhasattr (o : PyObj) (name : String) : Bool := (pylookup o name).isSome

/-- `len(x)` for strings and lists. -/
def Value.pyLen : Value → Nat
  | .vStr s => s.length
  | .vList l => l.length

/-- Python truthiness of a string or list. -/
def Value.truthy : Value → Bool
  | .vStr s => s ≠ ""
  | .vList l => !l.isEmpty

/-- Iterating a value: a list yields its items, a string yields its
characters (as one-character strings). -/
def Value.items : Value → List PyV
  | .vStr s => s.toList.map fun c => PyV.str (String.singleton c)
  | .vList l => l

/-- `str(x)` of a list item; the dict representation keeps every entry but
does not reproduce CPython quoting. -/
def PyV.pyStr : PyV → String
  | .str s => s
  | .dict d =>
    "\x7b" ++ String.intercalate ", " (d.map fun p => p.1 ++ ": " ++ p.2) ++ "\x7d"

/-- `str(x)` of an attribute value. -/
def Value.pyStr : Value → String
  | .vStr s => s
  | .vList l => "[" ++ String.intercalate ", " (l.map PyV.pyStr) ++ "]"

/-- A join item must be a string (`TypeError` otherwise). -/
def strOfItem : PyV → Except String String
  | .str s => .ok s
  | .dict _ => .error "TypeError: sequence item is not a string"

/-- A list comprehension over fallible element computations: left to right,
first exception wins. -/
def mapExcept (f : PyV → Except String String) : List PyV → Except String (List String)
  | [] => .ok []
  | x :: xs => do
    let y ← f x
    let ys ← mapExcept f xs
    .ok (y :: ys)

/-- `sep.join(x)`: `TypeError` unless every item is a string. -/
def pyJoin (sep : String) : Value → Except String String
  | .vStr s => .ok (String.intercalate sep (s.toList.map String.singleton))
  | .vList l => do
    let strs ← mapExcept strOfItem l
    .ok (String.intercalate sep strs)

/-! ## `openai_analyzer.py`: the `MeetingAnalysis` record and the analyzer -/

/-- The `MeetingAnalysis` dataclass: nine fields, no `technical_areas`. -/
structure MeetingAnalysis where
  transcript : String
  summary : String
  tasks : List PyDict
  hypotheses : List PyDict
  decisions : List String
  participants : List String
  president : String
  secretary : String
  absent : List String
deriving DecidableEq

/-- The class-level attribute names visible on every `MeetingAnalysis`
instance besides the nine dataclass fields: `hasattr`/`getattr` fall back
to the class and its bases, so a plain `@dataclass` instance (CPython 3.11,
`eq=True`, not frozen) also exposes the dataclass machinery and the
`object` methods under these names. -/
def meetingClassAttrNames : List String :=
  ["__annotations__", "__class__", "__dataclass_fields__",
   "__dataclass_params__", "__delattr__", "__dict__", "__dir__", "__doc__",
   "__eq__", "__format__", "__ge__", "__getattribute__", "__getstate__",
   "__gt__", "__hash__", "__init__", "__init_subclass__", "__le__",
   "__lt__", "__match_args__", "__module__", "__new__", "__ne__",
   "__reduce__", "__reduce_ex__", "__repr__", "__setattr__", "__sizeof__",
   "__str__", "__subclasshook__", "__weakref__"]

/-- The value `getattr` returns for a class-level attribute name.
`__module__` and `__doc__` are genuine strings and are reproduced exactly
(the class has an explicit docstring).  The other attributes are method,
class or metadata objects (or `None` for `__hash__` of an `eq` dataclass),
which the two-constructor `Value` type cannot carry; such an entry is
rendered nominally.  No theorem uses more of these entries than their
presence and their difference from the `get_value` sentinel string, both of
which hold of the real attribute objects (none of them is that string). -/
def classAttrValue (name : String) : Value :=
  if name = "__module__" then .vStr "openai_analyzer"
  else if name = "__doc__" then
    .vStr "Структура для анализа технического совещания"
  else .vStr ("<class attribute " ++ name ++ " of MeetingAnalysis>")

/-- The attribute namespace of a `MeetingAnalysis` instance: the nine
dataclass fields (instance `__dict__`, checked first), then the inherited
class-level attributes. -/
def MeetingAnalysis.toPyObj (m : MeetingAnalysis) : PyObj :=
  [("transcript", .vStr m.transcript),
   ("summary", .vStr m.summary),
   ("tasks", .vList (m.tasks.map PyV.dict)),
   ("hypotheses", .vList (m.hypotheses.map PyV.dict)),
   ("decisions", .vList (m.decisions.map PyV.str)),
   ("participants", .vList (m.participants.map PyV.str)),
   ("president", .vStr m.president),
   ("secretary", .vStr m.secretary),
   ("absent", .vList (m.absent.map PyV.str))]
  ++ meetingClassAttrNames.map fun n => (n, classAttrValue n)

/-- The decoded tool-call arguments, accessed via
`analysis_data.get(key, default)`; `none` models an absent key. -/
structure ToolArgs where
  summary : Option String
  tasks : Option (List PyDict)
  hypotheses : Option (List PyDict)
  decisions : Option (List String)
  participants : Option (List String)
  president : Option String
  secretary : Option String
  absent : Option (List String)

/-- Outcome of the engine request: `wellFormed` when
`response.choices[0].message.tool_calls[0].function.arguments` exists and
decodes as JSON, `malformed` (with the exception text) otherwise. -/
inductive RawResponse where
  | malformed : String → RawResponse
  | wellFormed : ToolArgs → RawResponse

/-- `OpenAIAnalyzer.parse_tool_response`: a decode failure is logged and
re-raised, never retried. -/
def parse_tool_response : RawResponse → Except String ToolArgs
  | .malformed e => .error e
  | .wellFormed args => .ok args

/-- `OpenAIAnalyzer._create_empty_analysis`. -/
def create_empty_analysis (transcript error_message : String) : MeetingAnalysis :=
  { transcript := transcript
    summary :=
      if error_message ≠ "" then "Ошибка при создании резюме: " ++ error_message
      else "Анализ не выполнен"
    tasks := []
    hypotheses := []
    decisions := []
    participants := []
    president := ""
    secretary := ""
    absent := [] }

/-- `OpenAIAnalyzer.analyze_transcript`, with the chat request abstracted as
`engine`.  The second component counts the engine calls made (0 or 1): the
function never retries, and by its type it never propagates an exception. -/
def analyze_transcript (engine : String → RawResponse) (transcript : String) :
    MeetingAnalysis × Nat :=
  if pyStrip transcript = "" then (create_empty_analysis transcript "", 0)
  else
    match parse_tool_response (engine transcript) with
    | .ok analysis_data =>
      ({ transcript := transcript
         summary := analysis_data.summary.getD ""
         tasks := analysis_data.tasks.getD []
         hypotheses := analysis_data.hypotheses.getD []
         decisions := analysis_data.decisions.getD []
         participants := analysis_data.participants.getD []
         president := analysis_data.president.getD ""
         secretary := analysis_data.secretary.getD ""
         absent := analysis_data.absent.getD [] }, 1)
    | .error e => (create_empty_analysis transcript e, 1)

/-- The five required task fields checked by `validate_analysis`. -/
def requiredTaskFields : List String :=
  ["название", "описание", "суть_задачи", "кто_выполняет", "срок"]

/-- `not task.get(field)` is falsy: the field must be present and
non-empty. -/
def taskFieldTruthy (task : PyDict) (field : String) : Bool :=
  match dGet task field with
  | some v => v ≠ ""
  | none => false

/-- `OpenAIAnalyzer.validate_analysis`. -/
def validate_analysis (analysis : MeetingAnalysis) : Bool :=
  if analysis.summary = "" then false
  else analysis.tasks.all fun task => requiredTaskFields.all (taskFieldTruthy task)

theorem pyStrip_eq_empty {s : String} (h : ∀ c ∈ s.toList, isPySpace c = true) :
    pyStrip s = "" := by
  rw [pyStrip, List.dropWhile_eq_nil_iff.mpr h]
  rfl

/-- C4: on an empty or whitespace-only transcript, `analyze_transcript`
returns the empty Meeting Record — all four list fields empty and a fixed
non-empty diagnostic summary — and performs zero engine calls. -/
theorem analyze_transcript_empty_input (engine : String → RawResponse)
    (t : String) (h : ∀ c ∈ t.toList, isPySpace c = true) :
    analyze_transcript engine t = (create_empty_analysis t "", 0) ∧
    (analyze_transcript engine t).1.tasks = [] ∧
    (analyze_transcript engine t).1.decisions = [] ∧
    (analyze_transcript engine t).1.hypotheses = [] ∧
    (analyze_transcript engine t).1.participants = [] ∧
    (analyze_transcript engine t).1.summary = "Анализ не выполнен" ∧
    (analyze_transcript engine t).1.summary ≠ "" ∧
    (analyze_transcript engine t).2 = 0 := by
  have he : analyze_transcript engine t = (create_empty_analysis t "", 0) := by
    rw [analyze_transcript, if_pos (pyStrip_eq_empty h)]
  refine ⟨he, ?_⟩
  rw [he]
  refine ⟨rfl, rfl, rfl, rfl, rfl, ?_, rfl⟩
  rw [show (create_empty_analysis t "", 0).1.summary = "Анализ не выполнен" from rfl]
  decide

/-- Witness for C4 on a whitespace-only transcript. -/
theorem analyze_transcript_empty_input_witness :
    analyze_transcript (fun _ => RawResponse.malformed "boom") "  \t\n "
      = (create_empty_analysis "  \t\n " "", 0) ∧
    (analyze_transcript (fun _ => RawResponse.malformed "boom") "  \t\n ").2 = 0 := by
  have h := analyze_transcript_empty_input (fun _ => RawResponse.malformed "boom")
    "  \t\n " (by decide)
  exact ⟨h.1, h.2.2.2.2.2.2.2⟩

/-- C5: when the engine response fails to decode, `analyze_transcript` makes
exactly one engine call (no retry) and returns — rather than raises — the
empty Meeting Record whose summary carries the error detail. -/
theorem analyze_transcript_decode_failure (engine : String → RawResponse)
    (t e : String) (hne : pyStrip t ≠ "")
    (hresp : engine t = RawResponse.malformed e) :
    analyze_transcript engine t = (create_empty_analysis t e, 1) ∧
    (analyze_transcript engine t).1.tasks = [] ∧
    (analyze_transcript engine t).1.decisions = [] ∧
    (analyze_transcript engine t).1.hypotheses = [] ∧
    (analyze_transcript engine t).1.participants = [] ∧
    (analyze_transcript engine t).2 = 1 ∧
    (e ≠ "" →
      (analyze_transcript engine t).1.summary
        = "Ошибка при создании резюме: " ++ e) := by
  have he : analyze_transcript engine t = (create_empty_analysis t e, 1) := by
    rw [analyze_transcript, if_neg hne, hresp]
    rfl
  refine ⟨he, ?_⟩
  rw [he]
  exact ⟨rfl, rfl, rfl, rfl, rfl, fun hene => by
    simp [create_empty_analysis, hene]⟩

/-- Witness for C5 at a concrete malformed response. -/
theorem analyze_transcript_decode_failure_witness :
    analyze_transcript (fun _ => RawResponse.malformed "Expecting value")
      "обсудили задачи"
      = (create_empty_analysis "обсудили задачи" "Expecting value", 1) ∧
    (analyze_transcript (fun _ => RawResponse.malformed "Expecting value")
      "обсудили задачи").1.summary
      = "Ошибка при создании резюме: Expecting value" := by
  have h := analyze_transcript_decode_failure
    (fun _ => RawResponse.malformed "Expecting value") "обсудили задачи"
    "Expecting value" (by decide) rfl
  exact ⟨h.1, h.2.2.2.2.2.2 (by decide)⟩

theorem taskFieldTruthy_eq_false {task : PyDict} {field : String} :
    taskFieldTruthy task field = false ↔
      dGet task field = none ∨ dGet task field = some "" := by
  rw [taskFieldTruthy]
  cases hg : dGet task field with
  | none => simp
  | some v => simp [hg]

/-- C9: `validate_analysis` is a total boolean check; it returns `false`
exactly when the summary is empty or some task lacks (or leaves empty) one
of the five required fields, and a record whose tasks carry a non-empty
value — such as the "Не указан" sentinel — in all five fields validates. -/
theorem validate_analysis_spec (a : MeetingAnalysis) :
    (validate_analysis a = false ↔
      a.summary = "" ∨ ∃ task ∈ a.tasks, ∃ field ∈ requiredTaskFields,
        dGet task field = none ∨ dGet task field = some "") ∧
    (a.summary ≠ "" →
      (∀ task ∈ a.tasks, ∀ field ∈ requiredTaskFields,
        ∃ v, dGet task field = some v ∧ v ≠ "") →
      validate_analysis a = true) := by
  constructor
  · rw [validate_analysis]
    by_cases hs : a.summary = ""
    · simp [hs]
    · rw [if_neg hs]
      simp only [hs, false_or, List.all_eq_false, Bool.not_eq_true,
        taskFieldTruthy_eq_false]
  · intro hs hok
    rw [validate_analysis, if_neg hs]
    rw [List.all_eq_true]
    intro task htask
    rw [List.all_eq_true]
    intro field hfield
    obtain ⟨v, hv, hvne⟩ := hok task htask field hfield
    rw [taskFieldTruthy, hv]
    simpa using hvne

/-- Witness for C9: a record whose single task fills every field with the
"Не указан" sentinel validates; dropping a field invalidates it. -/
theorem validate_analysis_spec_witness :
    validate_analysis
      { transcript := "t", summary := "итог",
        tasks := [[("название", "Задача"), ("описание", "Не указан"),
                   ("суть_задачи", "Не указан"), ("кто_выполняет", "Не указан"),
                   ("срок", "Не указан")]],
        hypotheses := [], decisions := [], participants := [],
        president := "", secretary := "", absent := [] } = true ∧
    validate_analysis
      { transcript := "t", summary := "итог",
        tasks := [[("название", "Задача")]],
        hypotheses := [], decisions := [], participants := [],
        president := "", secretary := "", absent := [] } = false := by
  constructor
  · exact (validate_analysis_spec _).2 (by decide)
      (by intro task htask field hfield; fin_cases htask <;> fin_cases hfield <;>
        exact ⟨_, rfl, by decide⟩)
  · exact (validate_analysis_spec _).1.mpr (Or.inr
      ⟨[("название", "Задача")], by decide, "описание", by decide, Or.inl (by decide)⟩)

/-! ## `weeek_integration.py`: publishing the analysis to Weeek -/

structure ProjectInfo where
  id : String
  title : String
deriving DecidableEq

structure BoardInfo where
  id : String
  title : String
deriving DecidableEq

structure TaskInfo where
  id : String
  title : String
deriving DecidableEq

structure Member where
  id : String
  email : String
  firstName : String
  lastName : String
deriving DecidableEq

/-- External interface of `WeeekIntegration`: the HTTP requests (project,
board and task creation, project lookup), the workspace member list and the
wall-clock values (`datetime.now()`) used in titles and descriptions. -/
structure WeeekEnv where
  today : Date
  nowStr : String
  members : List Member
  create_project : String → String → Except String ProjectInfo
  get_project_by_id : String → Option ProjectInfo
  create_board : String → String → String → Except String BoardInfo
  create_task_req : String → String → String → Option (List String) →
    Option String → Except String TaskInfo

/-- `WeeekIntegration.find_user_by_name`: first member matching by email,
first name, last name or full name (case-insensitively). -/
def find_user_by_name (members : List Member) (name : String) : Option Member :=
  let nameLower := pyLower name
  members.find? fun member =>
    pyLower member.email = nameLower ||
    pyLower member.firstName = nameLower ||
    pyLower member.lastName = nameLower ||
    pyStrip (pyLower member.firstName ++ " " ++ pyLower member.lastName) = nameLower

/-- `WeeekIntegration.create_task`: builds the payload — parsing a truthy
due date and dropping it when unparseable — and performs the request. -/
def create_task (env : WeeekEnv) (title description board_id : String)
    (assignees : Option (List String)) (due_date : Option String) :
    Except String TaskInfo :=
  let dueDate :=
    match due_date with
    | some ds => if ds ≠ "" then parse_due_date env.today ds else none
    | none => none
  env.create_task_req title description board_id assignees dueDate

/-- `', '.join(items) if items else default`. -/
def joinOrDefault (sep : String) (v : Value) (dflt : String) :
    Except String String :=
  if v.truthy then pyJoin sep v else .ok dflt

/-- `x[key]`: `TypeError` on a string item, `KeyError` on a missing key. -/
def pySubscript (it : PyV) (key : String) : Except String String :=
  match it with
  | .str _ => .error "TypeError: string indices must be integers"
  | .dict d =>
    match dGet d key with
    | some v => .ok v
    | none => .error ("KeyError: " ++ key)

/-- `x.get(key, default)`: `AttributeError` on a string item. -/
def PyV.get (it : PyV) (key dflt : String) : Except String String :=
  match it with
  | .str _ => .error "AttributeError: str object has no attribute get"
  | .dict d => .ok (dGetD d key dflt)

/-- The decision bullet list of the summary-task description. -/
def decisionBullets (v : Value) : String :=
  String.intercalate "\n" (v.items.map fun it => "• " ++ it.pyStr)

/-- One bullet of the hypothesis list: subscripts `hyp["hypothesis"]` and
reads `hyp.get("status", ...)`. -/
def hypLine (hyp : PyV) : Except String String := do
  let h ← pySubscript hyp "hypothesis"
  let st ← hyp.get "status" "требует проверки"
  Except.ok ("• " ++ h ++ " - " ++ st)

/-- The hypothesis bullet list of the summary-task description. -/
def hypothesisBullets (v : Value) : Except String String := do
  let lines ← mapExcept hypLine v.items
  .ok (String.intercalate "\n" lines)

/-- The description f-string of `create_meeting_project`, with its attribute
reads evaluated left to right (an absent attribute raises). -/
def create_meeting_project_description (analysis : PyObj) (nowStr : String) :
    Except String String := do
  let summary ← pygetattr analysis "summary"
  let participants ← pygetattr analysis "participants"
  let pJoined ← joinOrDefault ", " participants "Не определены"
  let technical_areas ← pygetattr analysis "technical_areas"
  let taJoined ← joinOrDefault ", " technical_areas "Не определены"
  let tasks ← pygetattr analysis "tasks"
  let decisions ← pygetattr analysis "decisions"
  let hypotheses ← pygetattr analysis "hypotheses"
  .ok ("📋 Автоматически созданный проект на основе анализа технического совещания\n\n📝 Резюме:\n"
    ++ summary.pyStr ++ "\n\n👥 Участники (" ++ toString participants.pyLen ++ "):\n"
    ++ pJoined ++ "\n\n🔧 Технические области:\n" ++ taJoined
    ++ "\n\n📊 Статистика:\n• Задач выявлено: " ++ toString tasks.pyLen
    ++ "\n• Решений принято: " ++ toString decisions.pyLen
    ++ "\n• Гипотез для проверки: " ++ toString hypotheses.pyLen
    ++ "\n\n🤖 Создано автоматически: " ++ nowStr)

/-- `WeeekIntegration.create_meeting_project`. -/
def create_meeting_project (env : WeeekEnv) (analysis : PyObj) :
    Except String ProjectInfo := do
  let description ← create_meeting_project_description analysis env.nowStr
  env.create_project ("Техническое совещание - " ++ env.nowStr) description

/-- `WeeekIntegration.create_meeting_board`. -/
def create_meeting_board (env : WeeekEnv) (project_id : String)
    (analysis : PyObj) : Except String BoardInfo := do
  let tasks ← pygetattr analysis "tasks"
  env.create_board project_id ("Задачи совещания от " ++ env.nowStr)
    ("Доска с задачами, выявленными на техническом совещании. Всего задач: "
      ++ toString tasks.pyLen)

/-- The description f-string of `create_summary_task`, attribute reads and
item accesses evaluated left to right. -/
def create_summary_task_description (analysis : PyObj) (nowStr : String) :
    Except String String := do
  let summary ← pygetattr analysis "summary"
  let decisions ← pygetattr analysis "decisions"
  let dBullets :=
    if decisions.truthy then decisionBullets decisions
    else "Решения не принимались"
  let hypotheses ← pygetattr analysis "hypotheses"
  let hBullets ←
    if hypotheses.truthy then hypothesisBullets hypotheses
    else Except.ok "Гипотезы не выдвигались"
  let participants ← pygetattr analysis "participants"
  let pJoined ← joinOrDefault ", " participants "Не определены"
  let technical_areas ← pygetattr analysis "technical_areas"
  let taJoined ← joinOrDefault ", " technical_areas "Не определены"
  .ok ("# Результаты технического совещания\n\n## 📝 Резюме\n" ++ summary.pyStr
    ++ "\n\n## ✅ Принятые решения (" ++ toString decisions.pyLen ++ ")\n"
    ++ dBullets
    ++ "\n\n## 🔬 Гипотезы для проверки (" ++ toString hypotheses.pyLen ++ ")\n"
    ++ hBullets
    ++ "\n\n## 👥 Участники\n" ++ pJoined
    ++ "\n\n## 🔧 Технические области\n" ++ taJoined
    ++ "\n\n---\n🤖 Автоматически создано на основе анализа транскрипции\n📅 Дата создания: "
    ++ nowStr)

/-- `WeeekIntegration.create_summary_task`. -/
def create_summary_task (env : WeeekEnv) (analysis : PyObj)
    (board_id : String) : Except String TaskInfo := do
  let description ← create_summary_task_description analysis env.nowStr
  create_task env "📋 Сводка технического совещания" description board_id
    none none

/-- An element of the `created_tasks` list (`assignee` is only present on
per-analysis tasks). -/
structure CreatedTask where
  id : String
  title : String
  type : String
  assignee : Option (Option String)
deriving DecidableEq

/-- An element of the `failed_tasks` list. -/
structure FailedTask where
  index : Nat
  title : String
  error : String
deriving DecidableEq

/-- The per-task description f-string. -/
def task_description (d : PyDict) : String :=
  "📋 " ++ dGetD d "суть_задачи" "Суть не указана"
  ++ "\n\n📝 Подробное описание:\n" ++ dGetD d "описание" "Описание не предоставлено"
  ++ "\n\n👤 Ответственный: " ++ dGetD d "кто_выполняет" "Не назначен"
  ++ "\n📅 Срок: " ++ dGetD d "срок" "Не указан"
  ++ "\n\n---\n🤖 Автоматически извлечено из транскрипции совещания"

/-- The body of the inner `try` of the per-task loop: assignee resolution
and task creation. -/
def runOneTask (env : WeeekEnv) (board_id : String) (i : Nat)
    (task_data : PyV) : Except String CreatedTask := do
  match task_data with
  | .str _ => .error "AttributeError: str object has no attribute get"
  | .dict d =>
    let assignee_name := dGet d "кто_выполняет"
    let assignees : List String :=
      match assignee_name with
      | some n =>
        if n ≠ "" && n ≠ "Не назначен" then
          match find_user_by_name env.members n with
          | some user => [user.id]
          | none => []
        else []
      | none => []
    let task ← create_task env (dGetD d "название" ("Задача " ++ toString (i + 1)))
      (task_description d) board_id
      (if assignees ≠ [] then some assignees else none) (dGet d "срок")
    .ok { id := task.id, title := task.title, type := "task",
          assignee := some assignee_name }

/-- The `failed_tasks` entry built in the inner `except` handler (itself a
dict access that can raise on a non-dict item). -/
def mkFailedTask (i : Nat) (task_data : PyV) (e : String) :
    Except String FailedTask :=
  match task_data with
  | .str _ => .error "AttributeError: str object has no attribute get"
  | .dict d =>
    .ok { index := i + 1,
          title := dGetD d "название" ("Задача " ++ toString (i + 1)),
          error := e }

/-- The per-task loop: returns the created entries, the failed entries and,
when the `except` handler itself raised, the aborting exception. -/
def processAnalysisTasks (env : WeeekEnv) (board_id : String) :
    Nat → List PyV → List CreatedTask × List FailedTask × Option String
  | _, [] => ([], [], none)
  | i, td :: rest =>
    match runOneTask env board_id i td with
    | .ok entry =>
      let (cs, fs, ex) := processAnalysisTasks env board_id (i + 1) rest
      (entry :: cs, fs, ex)
    | .error e =>
      match mkFailedTask i td e with
      | .ok fe =>
        let (cs, fs, ex) := processAnalysisTasks env board_id (i + 1) rest
        (cs, fe :: fs, ex)
      | .error e2 => ([], [], some e2)

/-- The `stats` sub-dict of the success result. -/
structure TaskStats where
  total_tasks : Nat
  created_tasks : Nat
  failed_tasks : Nat
  summary_task : Nat
  participants : Nat
  decisions : Nat
  hypotheses : Nat
deriving DecidableEq

/-- The dict returned by `create_tasks_from_analysis`: the success shape or
the `status: "error"` shape produced by the outer `except` handler. -/
inductive TasksResult where
  | success (project : ProjectInfo) (projectCreated : Bool) (board : BoardInfo)
      (tasks : List CreatedTask) (failed_tasks : List FailedTask)
      (stats : TaskStats)
  | failure (message : String) (project_id : String)
      (tasks : List CreatedTask) (failed_tasks : List FailedTask)
deriving DecidableEq

def TasksResult.status : TasksResult → String
  | .success .. => "success"
  | .failure .. => "error"

def TasksResult.createdList : TasksResult → List CreatedTask
  | .success _ _ _ ts _ _ => ts
  | .failure _ _ ts _ => ts

def TasksResult.failedList : TasksResult → List FailedTask
  | .success _ _ _ _ fs _ => fs
  | .failure _ _ _ fs => fs

/-- `WeeekIntegration.create_tasks_from_analysis`.  `Except.error` models an
exception propagating out of the method (project setup happens before the
`try`); `TasksResult.failure` models the `status: "error"` dict returned by
the outer `except` handler. -/
def create_tasks_from_analysis (env : WeeekEnv) (analysis : PyObj)
    (project_id : Option String) : Except String TasksResult := do
  let (pid, projectCreated) ←
    (match project_id with
     | none => do
       let p ← create_meeting_project env analysis
       Except.ok (p.id, true)
     | some pid => Except.ok (pid, false))
  let project ←
    (match env.get_project_by_id pid with
     | some pr => Except.ok pr
     | none => Except.error ("Проект " ++ pid ++ " не найден"))
  let board ← create_meeting_board env pid analysis
  Except.ok <|
    match create_summary_task env analysis board.id with
    | .error e => TasksResult.failure e pid [] []
    | .ok st =>
      let summaryEntry : CreatedTask :=
        { id := st.id, title := st.title, type := "summary", assignee := none }
      match pygetattr analysis "tasks" with
      | .error e => TasksResult.failure e pid [summaryEntry] []
      | .ok tasksVal =>
        let items := tasksVal.items
        let (cs, fs, ex) := processAnalysisTasks env board.id 0 items
        match ex with
        | some e => TasksResult.failure e pid (summaryEntry :: cs) fs
        | none =>
          match pygetattr analysis "participants", pygetattr analysis "decisions",
              pygetattr analysis "hypotheses" with
          | .ok pv, .ok dv, .ok hv =>
            TasksResult.success project projectCreated board (summaryEntry :: cs)
              fs
              { total_tasks := items.length
                created_tasks := (cs.filter fun t => t.type = "task").length
                failed_tasks := fs.length
                summary_task := 1
                participants := pv.pyLen
                decisions := dv.pyLen
                hypotheses := hv.pyLen }
          | .error e, _, _ => TasksResult.failure e pid (summaryEntry :: cs) fs
          | _, .error e, _ => TasksResult.failure e pid (summaryEntry :: cs) fs
          | _, _, .error e => TasksResult.failure e pid (summaryEntry :: cs) fs

/-! ## `meeting_secretary.py`: the orchestrator -/

/-- The `weeek_integration` entry of the final result dict. -/
inductive WeeekOutcome where
  | result : TasksResult → WeeekOutcome
  | caught : String → WeeekOutcome
  | skipped : WeeekOutcome
deriving DecidableEq

/-- Orchestrator result, restricted to the fields the claims mention. -/
structure TopResult where
  status : String
  error_message : Option String
  weeek : Option WeeekOutcome
deriving DecidableEq

/-- The success-path result assembly of `process_meeting_audio`: the
attribute reads of the `analysis` and `statistics` sub-dicts in evaluation
order.  The reads of `technical_areas` are the ones that can raise. -/
def assembleResult (analysis : PyObj) (w : WeeekOutcome) :
    Except String TopResult := do
  let _ ← pygetattr analysis "summary"
  let _ ← pygetattr analysis "tasks"
  let _ ← pygetattr analysis "hypotheses"
  let _ ← pygetattr analysis "decisions"
  let _ ← pygetattr analysis "participants"
  let _ ← pygetattr analysis "technical_areas"
  let _ ← pygetattr analysis "tasks"
  let _ ← pygetattr analysis "hypotheses"
  let _ ← pygetattr analysis "decisions"
  let _ ← pygetattr analysis "participants"
  let _ ← pygetattr analysis "technical_areas"
  .ok { status := "success", error_message := none, weeek := some w }

/-- External interface of `TechnicalMeetingSecretary`. -/
structure SecretaryEnv where
  transcribe : Except String String
  engine : String → RawResponse
  weeekEnabled : Bool
  weeek : WeeekEnv
  project_id : Option String

/-- `TechnicalMeetingSecretary.process_meeting_audio` (JSON saving omitted —
it only records the result).  The outer `except` converts any exception into
the `status: "error"` result with `analysis`/`weeek_integration` set to
`None`. -/
def process_meeting_audio (env : SecretaryEnv) : TopResult :=
  match env.transcribe with
  | .error e => { status := "error", error_message := some e, weeek := none }
  | .ok transcript =>
    if pyStrip transcript = "" then
      { status := "error",
        error_message := some "Пустая транскрипция - проверьте аудиофайл",
        weeek := none }
    else
      let analysis := (analyze_transcript env.engine transcript).1
      let _validation := validate_analysis analysis
      let obj := analysis.toPyObj
      let weeek_result : WeeekOutcome :=
        if env.weeekEnabled && !analysis.tasks.isEmpty then
          match create_tasks_from_analysis env.weeek obj env.project_id with
          | .ok r => .result r
          | .error e => .caught e
        else .skipped
      match assembleResult obj weeek_result with
      | .ok r => r
      | .error e =>
        { status := "error", error_message := some e, weeek := none }

/-! ### Reduction lemmas for the `Except` embedding -/

theorem exceptBind_ok {ε α β : Type} (a : α) (f : α → Except ε β) :
    (Except.ok a : Except ε α) >>= f = f a := rfl

theorem exceptBind_error {ε α β : Type} (e : ε) (f : α → Except ε β) :
    (Except.error e : Except ε α) >>= f = Except.error e := rfl

theorem mapExcept_strOfItem : ∀ l : List String,
    mapExcept strOfItem (l.map PyV.str) = Except.ok l := by
  intro l
  induction l with
  | nil => rfl
  | cons x xs ih => simp [mapExcept, ih, strOfItem, exceptBind_ok]

theorem joinOrDefault_strs (sep : String) (l : List String) (dflt : String) :
    ∃ s, joinOrDefault sep (Value.vList (l.map PyV.str)) dflt = Except.ok s := by
  rw [joinOrDefault]
  by_cases h : (Value.vList (l.map PyV.str)).truthy = true
  · rw [if_pos h]
    refine ⟨String.intercalate sep l, ?_⟩
    simp [pyJoin, mapExcept_strOfItem, exceptBind_ok]
  · rw [if_neg h]
    exact ⟨dflt, rfl⟩

theorem hypLine_dict {d : PyDict} {v : String} (hv : dGet d "hypothesis" = some v) :
    hypLine (PyV.dict d) =
      Except.ok ("• " ++ v ++ " - " ++ dGetD d "status" "требует проверки") := by
  simp [hypLine, pySubscript, hv, PyV.get, exceptBind_ok]

theorem mapExcept_hypLine {l : List PyDict}
    (h : ∀ d ∈ l, dGet d "hypothesis" ≠ none) :
    ∃ lines, mapExcept hypLine (l.map PyV.dict) = Except.ok lines := by
  induction l with
  | nil => exact ⟨[], rfl⟩
  | cons d ds ih =>
    obtain ⟨v, hv⟩ : ∃ v, dGet d "hypothesis" = some v := by
      cases hd : dGet d "hypothesis" with
      | none => exact absurd hd (h d (by simp))
      | some v => exact ⟨v, rfl⟩
    obtain ⟨lines, hlines⟩ := ih fun q hq => h q (List.mem_cons_of_mem _ hq)
    refine ⟨("• " ++ v ++ " - " ++ dGetD d "status" "требует проверки") :: lines, ?_⟩
    simp [mapExcept, hypLine_dict hv, hlines, exceptBind_ok]

theorem hypothesisBullets_ok {l : List PyDict}
    (h : ∀ d ∈ l, dGet d "hypothesis" ≠ none) :
    ∃ s, hypothesisBullets (Value.vList (l.map PyV.dict)) = Except.ok s := by
  obtain ⟨lines, hlines⟩ := mapExcept_hypLine h
  exact ⟨String.intercalate "\n" lines, by
    simp [hypothesisBullets, Value.items, hlines, exceptBind_ok]⟩

/-! ### Attribute reads on a `MeetingAnalysis` instance -/

theorem maGetattr_summary (ma : MeetingAnalysis) :
    pygetattr ma.toPyObj "summary" = .ok (.vStr ma.summary) := rfl

theorem maGetattr_tasks (ma : MeetingAnalysis) :
    pygetattr ma.toPyObj "tasks" = .ok (.vList (ma.tasks.map PyV.dict)) := rfl

theorem maGetattr_hypotheses (ma : MeetingAnalysis) :
    pygetattr ma.toPyObj "hypotheses"
      = .ok (.vList (ma.hypotheses.map PyV.dict)) := rfl

theorem maGetattr_decisions (ma : MeetingAnalysis) :
    pygetattr ma.toPyObj "decisions"
      = .ok (.vList (ma.decisions.map PyV.str)) := rfl

theorem maGetattr_participants (ma : MeetingAnalysis) :
    pygetattr ma.toPyObj "participants"
      = .ok (.vList (ma.participants.map PyV.str)) := rfl

theorem maGetattr_technical_areas (ma : MeetingAnalysis) :
    pygetattr ma.toPyObj "technical_areas"
      = .error "AttributeError: no attribute technical_areas" := rfl

/-- C2 (amended): on every `MeetingAnalysis` value the `technical_areas`
attribute is absent, so the `create_meeting_project` description build and
the orchestrator's success-path result assembly always raise
`AttributeError`; the `create_summary_task` description build does too
whenever every hypothesis entry carries its `hypothesis` key (otherwise the
subscription `hyp["hypothesis"]` raises `KeyError` first); consequently a
run whose transcription succeeds with a non-blank transcript always returns
the `status: "error"` result, whatever the engine and Weeek oracles do. -/
theorem technical_areas_missing :
    (∀ (ma : MeetingAnalysis) (nowStr : String),
      create_meeting_project_description ma.toPyObj nowStr
        = .error "AttributeError: no attribute technical_areas") ∧
    (∀ (ma : MeetingAnalysis) (nowStr : String),
      (∀ d ∈ ma.hypotheses, dGet d "hypothesis" ≠ none) →
      create_summary_task_description ma.toPyObj nowStr
        = .error "AttributeError: no attribute technical_areas") ∧
    (∀ (ma : MeetingAnalysis) (w : WeeekOutcome),
      assembleResult ma.toPyObj w
        = .error "AttributeError: no attribute technical_areas") ∧
    (∀ (env : SecretaryEnv) (t : String),
      env.transcribe = .ok t → pyStrip t ≠ "" →
      (process_meeting_audio env).status = "error") := by
  have hassemble : ∀ (ma : MeetingAnalysis) (w : WeeekOutcome),
      assembleResult ma.toPyObj w
        = .error "AttributeError: no attribute technical_areas" :=
    fun ma w => rfl
  refine ⟨?_, ?_, hassemble, ?_⟩
  · intro ma nowStr
    obtain ⟨ps, hps⟩ := joinOrDefault_strs ", " ma.participants "Не определены"
    simp only [create_meeting_project_description, maGetattr_summary,
      maGetattr_participants, maGetattr_technical_areas, hps,
      exceptBind_ok, exceptBind_error]
  · intro ma nowStr hhyp
    obtain ⟨ps, hps⟩ := joinOrDefault_strs ", " ma.participants "Не определены"
    by_cases ht : (Value.vList (ma.hypotheses.map PyV.dict)).truthy = true
    · obtain ⟨bs, hbs⟩ := hypothesisBullets_ok hhyp
      simp only [create_summary_task_description, maGetattr_summary,
        maGetattr_decisions, maGetattr_hypotheses, maGetattr_participants,
        maGetattr_technical_areas, ht, if_true, hbs, hps,
        exceptBind_ok, exceptBind_error]
    · simp only [create_summary_task_description, maGetattr_summary,
        maGetattr_decisions, maGetattr_hypotheses, maGetattr_participants,
        maGetattr_technical_areas, if_neg ht, hps,
        exceptBind_ok, exceptBind_error]
  · intro env t htrans hne
    simp only [process_meeting_audio, htrans]
    rw [if_neg hne]
    simp only [hassemble]

/-- Counterexample to C2 as stated: on a record whose hypothesis entry lacks
the `hypothesis` key, the `create_summary_task` description build raises
`KeyError`, not `AttributeError`. -/
theorem technical_areas_missing_counterexample :
    create_summary_task_description
      (MeetingAnalysis.toPyObj
        { transcript := "t", summary := "s", tasks := [], hypotheses := [[]],
          decisions := [], participants := [], president := "",
          secretary := "", absent := [] }) "12.10.2026 10:00"
      = .error "KeyError: hypothesis" ∧
    ("KeyError: hypothesis" : String)
      ≠ "AttributeError: no attribute technical_areas" := by
  exact ⟨rfl, by decide⟩

/-- Witness for C2 (amended) at concrete inputs. -/
theorem technical_areas_missing_witness :
    (process_meeting_audio
      { transcribe := .ok "обсудили задачи"
        engine := fun _ => RawResponse.malformed "bad"
        weeekEnabled := true
        weeek :=
          { today := ⟨2026, 10, 12⟩, nowStr := "12.10.2026 10:00", members := []
            create_project := fun _ _ => .ok ⟨"p1", "Проект"⟩
            get_project_by_id := fun _ => some ⟨"p1", "Проект"⟩
            create_board := fun _ _ _ => .ok ⟨"b1", "Доска"⟩
            create_task_req := fun t _ _ _ _ => .ok ⟨"t1", t⟩ }
        project_id := none }).status = "error" ∧
    create_meeting_project_description
      (MeetingAnalysis.toPyObj
        { transcript := "t", summary := "s", tasks := [], hypotheses := [],
          decisions := [], participants := [], president := "",
          secretary := "", absent := [] }) "12.10.2026 10:00"
      = .error "AttributeError: no attribute technical_areas" := by
  constructor
  · exact technical_areas_missing.2.2.2 _ "обсудили задачи" rfl (by decide)
  · exact technical_areas_missing.1 _ "12.10.2026 10:00"

/-! ### The best-effort policy of `create_tasks_from_analysis` -/

theorem processAnalysisTasks_no_abort (env : WeeekEnv) (bid : String) :
    ∀ (items : List PyV) (i : Nat), (∀ it ∈ items, ∃ d, it = PyV.dict d) →
      (processAnalysisTasks env bid i items).2.2 = none := by
  intro items
  induction items with
  | nil => intro i _; rfl
  | cons td rest ih =>
    intro i h
    obtain ⟨d, rfl⟩ := h td (by simp)
    have htail := ih (i + 1) fun q hq => h q (List.mem_cons_of_mem _ hq)
    rcases hp : processAnalysisTasks env bid (i + 1) rest with ⟨cs, fs, ex⟩
    rw [hp] at htail
    cases hrun : runOneTask env bid i (PyV.dict d) with
    | ok entry =>
      simp only [processAnalysisTasks, hrun, hp]
      exact htail
    | error e =>
      simp only [processAnalysisTasks, hrun, mkFailedTask, hp]
      exact htail

theorem processAnalysisTasks_scenario (env : WeeekEnv) (bid : String)
    (d1 d2 d3 : PyDict) (rest : List PyV) (e1 e3 : CreatedTask) (err : String)
    (fe : FailedTask) (csR : List CreatedTask)
    (h0 : runOneTask env bid 0 (PyV.dict d1) = .ok e1)
    (h1 : runOneTask env bid 1 (PyV.dict d2) = .error err)
    (h2 : runOneTask env bid 2 (PyV.dict d3) = .ok e3)
    (hfe : mkFailedTask 1 (PyV.dict d2) err = .ok fe)
    (hrest : processAnalysisTasks env bid 3 rest = (csR, [], none)) :
    processAnalysisTasks env bid 0
        (PyV.dict d1 :: PyV.dict d2 :: PyV.dict d3 :: rest)
      = (e1 :: e3 :: csR, [fe], none) := by
  simp only [processAnalysisTasks, Nat.reduceAdd, h0, h1, h2, hfe, hrest]

/-- C1: if project lookup, board creation and the summary-task creation
succeed while the creation of task #2 fails (tasks #1, #3 and all later
ones succeeding), `create_tasks_from_analysis` returns the `success` result
whose created list is the summary entry plus the successful task entries in
order and whose failed list is exactly the one entry for task #2 (carrying
index 2 and the error text); more generally, whenever the summary task was
created and every task entry is a dict, the overall status is `success`
however many per-task creations failed. -/
theorem create_tasks_best_effort :
    (∀ (env : WeeekEnv) (analysis : PyObj) (pid : String) (proj : ProjectInfo)
      (board : BoardInfo) (st : TaskInfo) (d1 d2 d3 : PyDict) (rest : List PyV)
      (e1 e3 : CreatedTask) (err : String) (fe : FailedTask)
      (csR : List CreatedTask) (pv dv hv : Value),
      env.get_project_by_id pid = some proj →
      create_meeting_board env pid analysis = .ok board →
      create_summary_task env analysis board.id = .ok st →
      pygetattr analysis "tasks"
        = .ok (.vList (PyV.dict d1 :: PyV.dict d2 :: PyV.dict d3 :: rest)) →
      runOneTask env board.id 0 (PyV.dict d1) = .ok e1 →
      runOneTask env board.id 1 (PyV.dict d2) = .error err →
      runOneTask env board.id 2 (PyV.dict d3) = .ok e3 →
      mkFailedTask 1 (PyV.dict d2) err = .ok fe →
      processAnalysisTasks env board.id 3 rest = (csR, [], none) →
      pygetattr analysis "participants" = .ok pv →
      pygetattr analysis "decisions" = .ok dv →
      pygetattr analysis "hypotheses" = .ok hv →
      fe.index = 2 ∧ fe.error = err ∧
      ∃ stats, create_tasks_from_analysis env analysis (some pid)
        = .ok (TasksResult.success proj false board
            ({ id := st.id, title := st.title, type := "summary",
               assignee := none } :: e1 :: e3 :: csR) [fe] stats)) ∧
    (∀ (env : WeeekEnv) (analysis : PyObj) (pid : String) (proj : ProjectInfo)
      (board : BoardInfo) (st : TaskInfo) (tasksVal pv dv hv : Value),
      env.get_project_by_id pid = some proj →
      create_meeting_board env pid analysis = .ok board →
      create_summary_task env analysis board.id = .ok st →
      pygetattr analysis "tasks" = .ok tasksVal →
      (∀ it ∈ tasksVal.items, ∃ d, it = PyV.dict d) →
      pygetattr analysis "participants" = .ok pv →
      pygetattr analysis "decisions" = .ok dv →
      pygetattr analysis "hypotheses" = .ok hv →
      ∃ r, create_tasks_from_analysis env analysis (some pid) = .ok r ∧
        r.status = "success") := by
  constructor
  · intro env analysis pid proj board st d1 d2 d3 rest e1 e3 err fe csR pv dv hv
      hproj hboard hsummary htasks h0 h1 h2 hfe hrest hpv hdv hhv
    refine ⟨?_, ?_, ?_⟩
    · cases hd : dGet d2 "название" <;> simp [mkFailedTask, hd] at hfe <;>
        simp [← hfe]
    · cases hd : dGet d2 "название" <;> simp [mkFailedTask, hd] at hfe <;>
        simp [← hfe]
    · have hloop := processAnalysisTasks_scenario env board.id d1 d2 d3 rest
        e1 e3 err fe csR h0 h1 h2 hfe hrest
      refine ⟨{ total_tasks := (PyV.dict d1 :: PyV.dict d2 :: PyV.dict d3 :: rest).length
                created_tasks := ((e1 :: e3 :: csR).filter fun t => t.type = "task").length
                failed_tasks := ([fe] : List FailedTask).length
                summary_task := 1
                participants := pv.pyLen
                decisions := dv.pyLen
                hypotheses := hv.pyLen }, ?_⟩
      simp only [create_tasks_from_analysis, hproj, hboard, hsummary, htasks,
        Value.items, hloop, hpv, hdv, hhv, exceptBind_ok]
  · intro env analysis pid proj board st tasksVal pv dv hv
      hproj hboard hsummary htasks hdicts hpv hdv hhv
    have hex := processAnalysisTasks_no_abort env board.id tasksVal.items 0 hdicts
    rcases hp2 : processAnalysisTasks env board.id 0 tasksVal.items with ⟨cs, fs, ex⟩
    rw [hp2] at hex
    simp only at hex
    subst hex
    refine ⟨TasksResult.success proj false board
      ({ id := st.id, title := st.title, type := "summary",
         assignee := none } :: cs) fs
      { total_tasks := tasksVal.items.length
        created_tasks := (cs.filter fun t => t.type = "task").length
        failed_tasks := fs.length
        summary_task := 1
        participants := pv.pyLen
        decisions := dv.pyLen
        hypotheses := hv.pyLen }, ?_, rfl⟩
    simp only [create_tasks_from_analysis, hproj, hboard, hsummary, htasks,
      hp2, hpv, hdv, hhv, exceptBind_ok]

/-- Witness for C1: three tasks, the second failing with an HTTP error. -/
theorem create_tasks_best_effort_witness :
    ∃ stats, create_tasks_from_analysis
      { today := ⟨2026, 10, 12⟩, nowStr := "12.10.2026 10:00", members := []
        create_project := fun _ _ => .error "unused"
        get_project_by_id := fun pid =>
          if pid = "p1" then some ⟨"p1", "Проект"⟩ else none
        create_board := fun _ _ _ => .ok ⟨"b1", "Доска"⟩
        create_task_req := fun t _ _ _ _ =>
          if t = "Задача Б" then .error "HTTP 500" else .ok ⟨"id-" ++ t, t⟩ }
      [("summary", .vStr "s"),
       ("tasks", .vList
         [.dict [("название", "Задача А"), ("кто_выполняет", "Не назначен"),
                 ("срок", "Не указан")],
          .dict [("название", "Задача Б")],
          .dict [("название", "Задача В")]]),
       ("hypotheses", .vList []),
       ("decisions", .vList []),
       ("participants", .vList []),
       ("technical_areas", .vList [.str "ПО"])]
      (some "p1")
      = .ok (TasksResult.success ⟨"p1", "Проект"⟩ false ⟨"b1", "Доска"⟩
          [⟨"id-📋 Сводка технического совещания",
            "📋 Сводка технического совещания", "summary", none⟩,
           ⟨"id-Задача А", "Задача А", "task", some (some "Не назначен")⟩,
           ⟨"id-Задача В", "Задача В", "task", some none⟩]
          [⟨2, "Задача Б", "HTTP 500"⟩] stats) := by
  obtain ⟨hidx, herr, stats, heq⟩ := create_tasks_best_effort.1
    { today := ⟨2026, 10, 12⟩, nowStr := "12.10.2026 10:00", members := []
      create_project := fun _ _ => .error "unused"
      get_project_by_id := fun pid =>
        if pid = "p1" then some ⟨"p1", "Проект"⟩ else none
      create_board := fun _ _ _ => .ok ⟨"b1", "Доска"⟩
      create_task_req := fun t _ _ _ _ =>
        if t = "Задача Б" then .error "HTTP 500" else .ok ⟨"id-" ++ t, t⟩ }
    [("summary", .vStr "s"),
     ("tasks", .vList
       [.dict [("название", "Задача А"), ("кто_выполняет", "Не назначен"),
               ("срок", "Не указан")],
        .dict [("название", "Задача Б")],
        .dict [("название", "Задача В")]]),
     ("hypotheses", .vList []),
     ("decisions", .vList []),
     ("participants", .vList []),
     ("technical_areas", .vList [.str "ПО"])]
    "p1" ⟨"p1", "Проект"⟩ ⟨"b1", "Доска"⟩
    ⟨"id-📋 Сводка технического совещания", "📋 Сводка технического совещания"⟩
    [("название", "Задача А"), ("кто_выполняет", "Не назначен"),
     ("срок", "Не указан")]
    [("название", "Задача Б")] [("название", "Задача В")] []
    ⟨"id-Задача А", "Задача А", "task", some (some "Не назначен")⟩
    ⟨"id-Задача В", "Задача В", "task", some none⟩
    "HTTP 500" ⟨2, "Задача Б", "HTTP 500"⟩ []
    (.vList []) (.vList []) (.vList [])
    rfl rfl rfl rfl rfl rfl rfl rfl rfl rfl rfl rfl
  exact ⟨stats, heq⟩

/-! ## `create_protocol.py`: placeholder substitution over a docx document

A paragraph is its list of run texts, a cell its list of paragraphs, a row
its list of cells.  Paragraph objects are stable while a row is rewritten in
place, so the source's iteration over the snapshot `cell.paragraphs` is
modelled by positional access with the paragraph count taken at cell entry
(after a `tableBig` expansion replaces a cell, the source keeps iterating
over detached paragraph objects — here the positions are gone and the
iterations are no-ops, matching the document-level effect). -/

abbrev Para := List String
abbrev Cell := List Para
abbrev Row := List Cell
abbrev Table := List Row

structure Docx where
  paragraphs : List Para
  tables : List Table
deriving DecidableEq

def lbrace : Char := Char.ofNat 123
def rbrace : Char := Char.ofNat 125

def paraText (p : Para) : String := String.join p

def hasBrace (s : String) : Bool := s.toList.contains lbrace

/-- Clear every run but the first and store `t` there (the run-merging
write used throughout `replace_placeholders`); a run-less paragraph is left
alone. -/
def mergeRuns (p : Para) (t : String) : Para :=
  match p with
  | [] => []
  | _ :: rs => t :: rs.map fun _ => ""

/-- Only the first run is overwritten (the `tableBig` marker clear). -/
def setRun0 (p : Para) (t : String) : Para :=
  match p with
  | [] => []
  | _ :: rs => t :: rs

/-- Python `\w` over the alphabets this template language uses. -/
def isWordChar (c : Char) : Bool :=
  c.isAlphanum || c = '_' || (0x400 ≤ c.toNat && c.toNat ≤ 0x4FF)

/-- Update position `i` of a list in place. -/
def updateAt {α : Type} : List α → Nat → (α → α) → List α
  | [], _, _ => []
  | x :: xs, 0, f => f x :: xs
  | x :: xs, n + 1, f => x :: updateAt xs n f

def getPara (rw : Row) (k j : Nat) : Para := (rw.getD k []).getD j []

/-- `get_value` of `replace_placeholders`: `hasattr`/`getattr` lookup with
the "no data available" sentinel. -/
def get_value (meeting : PyObj) (key : String) : Value :=
  match pylookup meeting key with
  | some v => v
  | none => .vStr "- данные не указаны -"

/-- Match of the placeholder pattern `\{(\w+)(?::(\w+))?\}` at the head of
the character list: the two groups and the remaining characters.  The `\w+`
groups are greedy; no backtracking can succeed where this fails, because a
shorter group would have to match `:` or `\x7d` against a word character. -/
def matchAt : List Char → Option ((String × Option String) × List Char)
  | c :: rest =>
    if c = lbrace then
      match rest.span isWordChar with
      | (w1, r1) =>
        if w1.isEmpty then none
        else
          match r1 with
          | c2 :: r2 =>
            if c2 = rbrace then some ((w1.asString, none), r2)
            else if c2 = ':' then
              match r2.span isWordChar with
              | (w2, r3) =>
                if w2.isEmpty then none
                else
                  match r3 with
                  | c3 :: r4 =>
                    if c3 = rbrace then
                      some ((w1.asString, some w2.asString), r4)
                    else none
                  | [] => none
            else none
          | [] => none
    else none
  | [] => none

/-- Does the placeholder pattern match anywhere in the list? -/
def hasMatchAux : List Char → Bool
  | [] => false
  | c :: cs => (matchAt (c :: cs)).isSome || hasMatchAux cs

/-- Does the placeholder pattern match anywhere in the string? -/
def hasPlaceholder (s : String) : Bool := hasMatchAux s.toList

/-- The `replace_match` callback: modifier handling, the temporary
`tableNum`/`tableBig` markers, and the sentinel for unknown keys or
modifiers. -/
def replace_match (meeting : PyObj) (g1 : String) (g2 : Option String) :
    String :=
  match g2 with
  | some key =>
    let value := get_value meeting key
    if g1 = "count" then
      match value with
      | .vList l => toString l.length
      | .vStr _ => "- данные не указаны -"
    else if g1 = "tableNum" then
      match value with
      | .vList _ => "\x7btableNum:" ++ key ++ "\x7d"
      | .vStr _ => "- данные не указаны -"
    else if g1 = "tableBig" then
      match value with
      | .vList _ => "\x7btableBig:" ++ key ++ "\x7d"
      | .vStr _ => "- данные не указаны -"
    else "- данные не указаны -"
  | none => (get_value meeting g1).pyStr

/-- `pattern.sub(replace_match, text)`: left-to-right, non-overlapping.
The fuel (the text length) dominates the scan, which consumes at least one
character per step. -/
def subChars (meeting : PyObj) : Nat → List Char → List Char
  | 0, cs => cs
  | _ + 1, [] => []
  | fuel + 1, c :: cs =>
    match matchAt (c :: cs) with
    | some ((g1, g2), rest) =>
      (replace_match meeting g1 g2).toList ++ subChars meeting fuel rest
    | none => c :: subChars meeting fuel cs

def patternSub (meeting : PyObj) (s : String) : String :=
  (subChars meeting s.toList.length s.toList).asString

/-- Remove `pre` from the head of the list, if present. -/
def dropPref : List Char → List Char → Option (List Char)
  | [], cs => some cs
  | _ :: _, [] => none
  | p :: ps, c :: cs => if c = p then dropPref ps cs else none

/-- `re.search` for a `\{tag(\w+)\}` marker: key of the first occurrence. -/
def findMarker (tag : List Char) : List Char → Option String
  | [] => none
  | c :: cs =>
    match dropPref tag (c :: cs) with
    | some r1 =>
      match r1.span isWordChar with
      | (w, r2) =>
        if w.isEmpty then findMarker tag cs
        else
          match r2 with
          | c2 :: _ => if c2 = rbrace then some w.asString else findMarker tag cs
          | [] => findMarker tag cs
    | none => findMarker tag cs

def tableNumTag : List Char := lbrace :: "tableNum:".toList

def tableBigTag : List Char := lbrace :: "tableBig:".toList

/-- Decimal rendering of `str(i)` for the `tableBig` row numbers. -/
def natToStrAux : Nat → Nat → List Char
  | 0, _ => []
  | fuel + 1, n =>
    if n < 10 then [digitChar n]
    else natToStrAux fuel (n / 10) ++ [digitChar (n % 10)]

def natToStr (n : Nat) : String := (natToStrAux (n + 1) n).asString

/-- The `tableNum` population: every run-bearing paragraph of every cell of
the row receives `str(item)`. -/
def populateRowNum (rw : Row) (txt : String) : Row :=
  rw.map fun cell => cell.map fun p => mergeRuns p txt

/-- The `tableNum` clones: each clone copies the current row state and is
populated with its item. -/
def expandNumClones (cur : Row) : List PyV → List Row
  | [] => []
  | it :: rest =>
    let c := populateRowNum cur it.pyStr
    c :: expandNumClones c rest

/-- The `tableNum` expansion: the first item reuses the row in place, the
rest become clones (appended to the table). -/
def expandNum (rw0 : Row) : List PyV → Row × List Row
  | [] => (rw0, [])
  | it :: rest =>
    let r1 := populateRowNum rw0 it.pyStr
    (r1, expandNumClones r1 rest)

/-- The `enumerate(new_row.cells)` loop of the `tableBig` population:
columns 0-3 are rewritten through the `.text` setter (one paragraph, one
run), later columns keep their content. -/
def populateRowBigAux (d : PyDict) (i : Nat) : Nat → List Cell → List Cell
  | _, [] => []
  | col, cell :: rest =>
    (if col = 0 then [[natToStr i]]
     else if col = 1 then [[dGetD d "суть_задачи" (dGetD d "гипотеза" "")]]
     else if col = 2 then [[dGetD d "кто_выполняет" (dGetD d "ответственный" "")]]
     else if col = 3 then [[dGetD d "срок" (dGetD d "дата_проверки" "")]]
     else cell) :: populateRowBigAux d i (col + 1) rest

/-- The `tableBig` population of one row. -/
def populateRowBig (rw : Row) (i : Nat) (d : PyDict) : Row :=
  populateRowBigAux d i 0 rw

/-- The `tableBig` clones (`item.get` raises on a non-dict item). -/
def expandBigClones (cur : Row) (i : Nat) :
    List PyV → Except String (List Row)
  | [] => .ok []
  | it :: rest =>
    match it with
    | .str _ => .error "AttributeError: str object has no attribute get"
    | .dict d =>
      let c := populateRowBig cur i d
      match expandBigClones c (i + 1) rest with
      | .ok cls => .ok (c :: cls)
      | .error e => .error e

/-- The `tableBig` expansion (`enumerate(items, 1)`). -/
def expandBig (rw0 : Row) : List PyV → Except String (Row × List Row)
  | [] => .ok (rw0, [])
  | it :: rest =>
    match it with
    | .str _ => .error "AttributeError: str object has no attribute get"
    | .dict d =>
      let r1 := populateRowBig rw0 1 d
      match expandBigClones r1 2 rest with
      | .ok cls => .ok (r1, cls)
      | .error e => .error e

/-- Process the paragraphs of cell `k`; `n` is the remaining count of the
snapshot taken at cell entry, `j` the current position. -/
def processParasLoop (meeting : PyObj) (k : Nat) :
    Nat → Nat → Row → List Row → Except String (Row × List Row)
  | 0, _, rw, app => .ok (rw, app)
  | n + 1, j, rw, app =>
    let p := getPara rw k j
    let full := paraText p
    if hasBrace full = false then processParasLoop meeting k n (j + 1) rw app
    else
      match findMarker tableNumTag full.toList with
      | some key =>
        let items := (get_value meeting key).items
        let rw0 := updateAt rw k fun cell =>
          updateAt cell j fun q => mergeRuns q ""
        let expanded := expandNum rw0 items
        processParasLoop meeting k n (j + 1) expanded.1 (app ++ expanded.2)
      | none =>
        match findMarker tableBigTag full.toList with
        | some key =>
          let items := (get_value meeting key).items
          let rw0 := updateAt rw k fun cell =>
            updateAt cell j fun q => setRun0 q "1"
          match expandBig rw0 items with
          | .error e => .error e
          | .ok (rw1, newRows) =>
            processParasLoop meeting k n (j + 1) rw1 (app ++ newRows)
        | none =>
          let newText := patternSub meeting full
          let rw1 := updateAt rw k fun cell =>
            updateAt cell j fun q => mergeRuns q newText
          processParasLoop meeting k n (j + 1) rw1 app

/-- Process the cells of a row; `n` is the remaining cell count (row length
never changes), `k` the current position. -/
def processCellsLoop (meeting : PyObj) :
    Nat → Nat → Row → List Row → Except String (Row × List Row)
  | 0, _, rw, app => .ok (rw, app)
  | n + 1, k, rw, app =>
    match processParasLoop meeting k (rw.getD k []).length 0 rw app with
    | .error e => .error e
    | .ok (rw1, app1) => processCellsLoop meeting n (k + 1) rw1 app1

def processRow (meeting : PyObj) (r : Row) : Except String (Row × List Row) :=
  processCellsLoop meeting r.length 0 r []

/-- Iterate the snapshot of the table's rows; appended rows are collected
and never re-scanned. -/
def processRowsLoop (meeting : PyObj) :
    List Row → Except String (List Row × List Row)
  | [] => .ok ([], [])
  | r :: rs =>
    match processRow meeting r with
    | .error e => .error e
    | .ok (r1, app1) =>
      match processRowsLoop meeting rs with
      | .error e => .error e
      | .ok (rs1, app2) => .ok (r1 :: rs1, app1 ++ app2)

/-- One table: the processed original rows followed by all appended rows
(`table._tbl.append` puts clones at the end of the table). -/
def processTable (meeting : PyObj) (t : Table) : Except String Table :=
  match processRowsLoop meeting t with
  | .error e => .error e
  | .ok (rows, appended) => .ok (rows ++ appended)

/-- The paragraph pass: substitute and merge the runs. -/
def processParagraph (meeting : PyObj) (p : Para) : Para :=
  let full := paraText p
  if hasBrace full = false then p
  else mergeRuns p (patternSub meeting full)

def processTables (meeting : PyObj) : List Table → Except String (List Table)
  | [] => .ok []
  | t :: ts =>
    match processTable meeting t with
    | .error e => .error e
    | .ok t1 =>
      match processTables meeting ts with
      | .error e => .error e
      | .ok ts1 => .ok (t1 :: ts1)

/-- `replace_placeholders` (document loading and saving aside): the
paragraph pass and the table pass; `Except.error` models an uncaught
exception. -/
def replace_placeholders (meeting : PyObj) (doc : Docx) : Except String Docx :=
  match processTables meeting doc.tables with
  | .error e => .error e
  | .ok tables =>
    .ok { paragraphs := doc.paragraphs.map (processParagraph meeting)
          tables := tables }

def cellTexts (c : Cell) : List String := c.map paraText

def rowTexts (rw : Row) : List (List String) := rw.map cellTexts

def tableTexts (t : Table) : List (List (List String)) := t.map rowTexts

/-- The texts of a document: paragraph texts and, per table cell, the
paragraph texts. -/
def docTexts (d : Docx) : List String × List (List (List (List String))) :=
  (d.paragraphs.map paraText, d.tables.map tableTexts)

/-- The nine dataclass fields of `MeetingAnalysis`. -/
def meetingFieldNames : List String :=
  ["transcript", "summary", "tasks", "hypotheses", "decisions",
   "participants", "president", "secretary", "absent"]

theorem pylookup_append (a b : PyObj) (key : String) :
    pylookup (a ++ b) key
      = match pylookup a key with
        | some v => some v
        | none => pylookup b key := by
  induction a with
  | nil => rfl
  | cons p rest ih =>
    obtain ⟨k, v⟩ := p
    simp only [List.cons_append, pylookup]
    by_cases h : k = key
    · simp only [if_pos h]
    · simp only [if_neg h]
      exact ih

theorem pylookup_map_none (f : String → Value) (key : String) :
    ∀ names : List String, key ∉ names →
      pylookup (names.map fun n => (n, f n)) key = none := by
  intro names
  induction names with
  | nil => intro h; rfl
  | cons n ns ih =>
    intro h
    simp only [List.mem_cons, not_or] at h
    simp only [List.map_cons, pylookup,
      if_neg (fun he : n = key => h.1 he.symm), ih h.2]

/-- C6 (corrected): `get_value` is total; a key naming a dataclass field
returns the value of that field, and the sentinel is returned for a key
naming no attribute of the instance at all.  But `hasattr` also finds the
inherited class-level attributes, so for names such as `__class__` or
`__init__` (all matching `\w+`) `get_value` returns that attribute and
NOT the sentinel.  The sentinel itself is non-empty and contains no
placeholder. -/
theorem get_value_sentinel :
    (∀ (ma : MeetingAnalysis) (key : String), key ∉ meetingFieldNames →
      key ∉ meetingClassAttrNames →
      get_value ma.toPyObj key = .vStr "- данные не указаны -") ∧
    (∀ ma : MeetingAnalysis,
      get_value ma.toPyObj "transcript" = .vStr ma.transcript ∧
      get_value ma.toPyObj "summary" = .vStr ma.summary ∧
      get_value ma.toPyObj "tasks" = .vList (ma.tasks.map PyV.dict) ∧
      get_value ma.toPyObj "hypotheses" = .vList (ma.hypotheses.map PyV.dict) ∧
      get_value ma.toPyObj "decisions" = .vList (ma.decisions.map PyV.str) ∧
      get_value ma.toPyObj "participants"
        = .vList (ma.participants.map PyV.str) ∧
      get_value ma.toPyObj "president" = .vStr ma.president ∧
      get_value ma.toPyObj "secretary" = .vStr ma.secretary ∧
      get_value ma.toPyObj "absent" = .vList (ma.absent.map PyV.str)) ∧
    (∀ (ma : MeetingAnalysis) (name : String), name ∈ meetingClassAttrNames →
      pyhasattr ma.toPyObj name = true ∧
      get_value ma.toPyObj name = classAttrValue name ∧
      get_value ma.toPyObj name ≠ .vStr "- данные не указаны -") ∧
    ("- данные не указаны -" : String) ≠ "" ∧
    hasPlaceholder "- данные не указаны -" = false ∧
    hasBrace "- данные не указаны -" = false := by
  refine ⟨?_, ?_, ?_, by decide, by decide, by decide⟩
  · intro ma key hF hC
    simp only [meetingFieldNames, List.mem_cons, List.not_mem_nil, or_false,
      not_or] at hF
    obtain ⟨h1, h2, h3, h4, h5, h6, h7, h8, h9⟩ := hF
    have hfields : pylookup
        [("transcript", Value.vStr ma.transcript),
         ("summary", Value.vStr ma.summary),
         ("tasks", Value.vList (ma.tasks.map PyV.dict)),
         ("hypotheses", Value.vList (ma.hypotheses.map PyV.dict)),
         ("decisions", Value.vList (ma.decisions.map PyV.str)),
         ("participants", Value.vList (ma.participants.map PyV.str)),
         ("president", Value.vStr ma.president),
         ("secretary", Value.vStr ma.secretary),
         ("absent", Value.vList (ma.absent.map PyV.str))] key = none := by
      simp only [pylookup]
      rw [if_neg fun he => h1 he.symm, if_neg fun he => h2 he.symm,
        if_neg fun he => h3 he.symm, if_neg fun he => h4 he.symm,
        if_neg fun he => h5 he.symm, if_neg fun he => h6 he.symm,
        if_neg fun he => h7 he.symm, if_neg fun he => h8 he.symm,
        if_neg fun he => h9 he.symm]
    have hlook : pylookup ma.toPyObj key = none := by
      simp only [MeetingAnalysis.toPyObj]
      rw [pylookup_append, hfields]
      exact pylookup_map_none classAttrValue key meetingClassAttrNames hC
    simp only [get_value, hlook]
  · intro ma
    exact ⟨rfl, rfl, rfl, rfl, rfl, rfl, rfl, rfl, rfl⟩
  · intro ma name hname
    have hg : get_value ma.toPyObj name = classAttrValue name := by
      fin_cases hname <;> rfl
    have hh : pyhasattr ma.toPyObj name = true := by
      fin_cases hname <;> rfl
    refine ⟨hh, hg, ?_⟩
    rw [hg]
    fin_cases hname <;> decide

/-- C6 counterexample: `__class__` names no dataclass field, yet `hasattr`
finds the inherited attribute, so `get_value` returns it and not the
sentinel. -/
theorem get_value_sentinel_counterexample :
    ("__class__" : String) ∉ meetingFieldNames ∧
    pyhasattr
      (MeetingAnalysis.toPyObj
        { transcript := "t", summary := "s", tasks := [], hypotheses := [],
          decisions := [], participants := [], president := "",
          secretary := "", absent := [] }) "__class__" = true ∧
    get_value
      (MeetingAnalysis.toPyObj
        { transcript := "t", summary := "s", tasks := [], hypotheses := [],
          decisions := [], participants := [], president := "",
          secretary := "", absent := [] }) "__class__"
      ≠ .vStr "- данные не указаны -" :=
  ⟨by decide, rfl, by decide⟩

/-- Witness for C6 at a key outside the whole attribute namespace and at an
inherited name. -/
theorem get_value_sentinel_witness :
    ("technical_areas" : String) ∉ meetingFieldNames ∧
    ("technical_areas" : String) ∉ meetingClassAttrNames ∧
    get_value
      (MeetingAnalysis.toPyObj
        { transcript := "t", summary := "s", tasks := [], hypotheses := [],
          decisions := [], participants := [], president := "",
          secretary := "", absent := [] }) "technical_areas"
      = .vStr "- данные не указаны -" ∧
    get_value
      (MeetingAnalysis.toPyObj
        { transcript := "t", summary := "s", tasks := [], hypotheses := [],
          decisions := [], participants := [], president := "",
          secretary := "", absent := [] }) "__init__"
      ≠ .vStr "- данные не указаны -" :=
  ⟨by decide, by decide,
   get_value_sentinel.1 _ "technical_areas" (by decide) (by decide),
   (get_value_sentinel.2.2.1 _ "__init__" (by decide)).2.2⟩

/-! ### Substitution is the identity where the pattern does not match -/

theorem subChars_noMatch (meeting : PyObj) :
    ∀ (fuel : Nat) (cs : List Char), hasMatchAux cs = false →
      subChars meeting fuel cs = cs := by
  intro fuel
  induction fuel with
  | zero => intro cs _; rfl
  | succ n ih =>
    intro cs h
    cases cs with
    | nil => rfl
    | cons c cs' =>
      rw [hasMatchAux] at h
      obtain ⟨hm, hrest⟩ := Bool.or_eq_false_iff.mp h
      cases hma : matchAt (c :: cs') with
      | some x => rw [hma] at hm; simp at hm
      | none =>
        simp only [subChars, hma]
        rw [ih cs' hrest]

theorem patternSub_noMatch (meeting : PyObj) {s : String}
    (h : hasPlaceholder s = false) : patternSub meeting s = s := by
  rw [patternSub, subChars_noMatch meeting _ _ h]
  rfl

theorem dropPref_eq : ∀ (t l r : List Char), dropPref t l = some r →
    l = t ++ r := by
  intro t
  induction t with
  | nil =>
    intro l r h
    simp only [dropPref, Option.some.injEq] at h
    simpa using h
  | cons p ps ih =>
    intro l r h
    cases l with
    | nil => simp [dropPref] at h
    | cons c cs =>
      simp only [dropPref] at h
      by_cases hc : c = p
      · rw [if_pos hc] at h
        rw [hc, List.cons_append, ih cs r h]
      · rw [if_neg hc] at h
        cases h

theorem span_word_all : ∀ (ws : List Char), (∀ x ∈ ws, isWordChar x = true) →
    ∀ {c : Char}, isWordChar c = false → ∀ (r : List Char),
    (ws ++ c :: r).span isWordChar = (ws, c :: r) := by
  intro ws
  induction ws with
  | nil =>
    intro _ c hc r
    simp [List.span_eq_take_drop, List.takeWhile_cons, List.dropWhile_cons, hc]
  | cons w ws' ih =>
    intro hall c hc r
    have hw : isWordChar w = true := hall w (by simp)
    have ih2 := ih (fun x hx => hall x (List.mem_cons_of_mem _ hx)) hc r
    rw [List.span_eq_take_drop] at ih2 ⊢
    have ta : List.takeWhile isWordChar (ws' ++ c :: r) = ws' :=
      congrArg Prod.fst ih2
    have dr : List.dropWhile isWordChar (ws' ++ c :: r) = c :: r :=
      congrArg Prod.snd ih2
    simp only [List.cons_append, List.takeWhile_cons, List.dropWhile_cons, hw,
      if_true, ta, dr]

theorem isWordChar_ne_lbrace {c : Char} (h : isWordChar c = true) :
    c ≠ lbrace := by
  intro he
  rw [he] at h
  exact absurd h (by decide)

/-- Where a `\{tag:(\w+)\}` marker is found, the general placeholder
pattern also matches. -/
theorem findMarker_isSome_hasMatch (ws : List Char) (hws : ¬ws.isEmpty = true)
    (hall : ∀ x ∈ ws, isWordChar x = true) :
    ∀ (cs : List Char) (key : String),
      findMarker (lbrace :: (ws ++ [':'])) cs = some key →
      hasMatchAux cs = true := by
  intro cs
  induction cs with
  | nil => intro key h; simp [findMarker] at h
  | cons c cs' ih =>
    intro key h
    rw [hasMatchAux, Bool.or_eq_true]
    cases hdp : dropPref (lbrace :: (ws ++ [':'])) (c :: cs') with
    | none =>
      simp only [findMarker, hdp] at h
      exact Or.inr (ih key h)
    | some r1 =>
      simp only [findMarker, hdp] at h
      rcases hsp : r1.span isWordChar with ⟨w, r2⟩
      rw [hsp] at h
      dsimp only at h
      by_cases hw : w.isEmpty
      · rw [if_pos hw] at h
        exact Or.inr (ih key h)
      · rw [if_neg hw] at h
        cases r2 with
        | nil => exact Or.inr (ih key h)
        | cons c2 r2' =>
          by_cases hc2 : c2 = rbrace
          · left
            have he := dropPref_eq _ _ _ hdp
            rw [List.cons_append] at he
            injection he with he1 he2
            subst he1
            subst he2
            have harr : (ws ++ [':']) ++ r1 = ws ++ ':' :: r1 := by simp
            have hspan := span_word_all ws hall
              (show isWordChar ':' = false by decide) r1
            have hwsf : ws.isEmpty = false := Bool.eq_false_iff.mpr hws
            have hwf : w.isEmpty = false := Bool.eq_false_iff.mpr hw
            subst hc2
            rw [harr]
            simp only [matchAt, hspan, hsp, hwsf, hwf, Bool.false_eq_true,
              if_false, if_neg (show ¬(':' = rbrace) by decide),
              eq_self_iff_true, if_true, Option.isSome]
          · have h2 : (if c2 = rbrace then some w.asString
                else findMarker (lbrace :: (ws ++ [':'])) cs') = some key := h
            rw [if_neg hc2] at h2
            exact Or.inr (ih key h2)

theorem findMarker_num_none {cs : List Char} (h : hasMatchAux cs = false) :
    findMarker tableNumTag cs = none := by
  cases hf : findMarker tableNumTag cs with
  | none => rfl
  | some key =>
    have he : tableNumTag = lbrace :: ("tableNum".toList ++ [':']) := by decide
    rw [he] at hf
    have := findMarker_isSome_hasMatch "tableNum".toList (by decide) (by decide)
      cs key hf
    rw [this] at h
    cases h

theorem findMarker_big_none {cs : List Char} (h : hasMatchAux cs = false) :
    findMarker tableBigTag cs = none := by
  cases hf : findMarker tableBigTag cs with
  | none => rfl
  | some key =>
    have he : tableBigTag = lbrace :: ("tableBig".toList ++ [':']) := by decide
    rw [he] at hf
    have := findMarker_isSome_hasMatch "tableBig".toList (by decide) (by decide)
      cs key hf
    rw [this] at h
    cases h

theorem join_cons (a : String) (l : List String) :
    String.join (a :: l) = a ++ String.join l := by
  apply String.ext
  simp [String.data_join]

theorem join_map_empty (rs : List String) :
    String.join (rs.map fun _ => "") = "" := by
  apply String.ext
  simp only [String.data_join, List.map_map]
  induction rs with
  | nil => rfl
  | cons x xs ih => simpa using ih

theorem paraText_mergeRuns_self (p : Para) :
    paraText (mergeRuns p (paraText p)) = paraText p := by
  cases p with
  | nil => rfl
  | cons r rs =>
    show paraText (paraText (r :: rs) :: rs.map fun _ => "") = paraText (r :: rs)
    rw [paraText, join_cons, join_map_empty, String.append_empty]

theorem map_updateAt_getD {α β : Type} (g : α → β) :
    ∀ (l : List α) (i : Nat) (f : α → α) (dflt : α),
      g (f (l.getD i dflt)) = g (l.getD i dflt) →
      (updateAt l i f).map g = l.map g := by
  intro l
  induction l with
  | nil => intro i f dflt _; rfl
  | cons x xs ih =>
    intro i f dflt h
    cases i with
    | zero =>
      simp only [updateAt, List.map_cons]
      rw [show g (f x) = g x from h]
    | succ n =>
      simp only [updateAt, List.map_cons]
      rw [ih n f dflt h]

theorem getD_mem_or {α : Type} :
    ∀ (l : List α) (i : Nat) (d : α), l.getD i d ∈ l ∨ l.getD i d = d := by
  intro l
  induction l with
  | nil => intro i d; right; cases i <;> rfl
  | cons x xs ih =>
    intro i d
    cases i with
    | zero => left; simp
    | succ n =>
      rcases ih n d with hm | he
      · left; exact List.mem_cons_of_mem _ hm
      · right; exact he

/-- No paragraph text of the row matches the placeholder pattern. -/
abbrev RowNoMatch (rw : Row) : Prop :=
  ∀ c ∈ rw, ∀ p ∈ c, hasPlaceholder (paraText p) = false

theorem rowNoMatch_of_texts {rw rw' : Row} (he : rowTexts rw' = rowTexts rw)
    (h : RowNoMatch rw) : RowNoMatch rw' := by
  intro c hc p hp
  have hc' : cellTexts c ∈ rowTexts rw := by
    rw [← he]
    exact List.mem_map_of_mem cellTexts hc
  obtain ⟨c0, hc0, hcc⟩ := List.mem_map.mp hc'
  have hp' : paraText p ∈ cellTexts c0 := by
    rw [hcc]
    exact List.mem_map_of_mem paraText hp
  obtain ⟨p0, hp0, hpp⟩ := List.mem_map.mp hp'
  rw [← hpp]
  exact h c0 hc0 p0 hp0

theorem rowNoMatch_getPara {rw : Row} (h : RowNoMatch rw) (k j : Nat) :
    hasPlaceholder (paraText (getPara rw k j)) = false := by
  rw [getPara]
  rcases getD_mem_or rw k [] with hck | hck
  · rcases getD_mem_or (rw.getD k []) j [] with hpj | hpj
    · exact h _ hck _ hpj
    · rw [hpj]; decide
  · rw [hck, show ([] : Cell).getD j [] = [] from rfl]
    decide

theorem processParasLoop_noMatch (meeting : PyObj) (k : Nat) :
    ∀ (n j : Nat) (rw : Row) (app : List Row), RowNoMatch rw →
      ∃ rw1, processParasLoop meeting k n j rw app = .ok (rw1, app) ∧
        rowTexts rw1 = rowTexts rw := by
  intro n
  induction n with
  | zero => intro j rw app _; exact ⟨rw, rfl, rfl⟩
  | succ n' ih =>
    intro j rw app h
    have hnm := rowNoMatch_getPara h k j
    by_cases hb : hasBrace (paraText (getPara rw k j)) = false
    · obtain ⟨rw1, hrec, hrt⟩ := ih (j + 1) rw app h
      exact ⟨rw1, by simp only [processParasLoop, if_pos hb, hrec], hrt⟩
    · have hnum := @findMarker_num_none ((paraText (getPara rw k j)).toList) hnm
      have hbig := @findMarker_big_none ((paraText (getPara rw k j)).toList) hnm
      have hsub : patternSub meeting (paraText (getPara rw k j))
          = paraText (getPara rw k j) := patternSub_noMatch meeting hnm
      have htexts : rowTexts (updateAt rw k fun cell =>
          updateAt cell j fun q =>
            mergeRuns q (patternSub meeting (paraText (getPara rw k j))))
          = rowTexts rw := by
        apply map_updateAt_getD cellTexts rw k _ []
        apply map_updateAt_getD paraText (rw.getD k []) j _ []
        rw [hsub]
        exact paraText_mergeRuns_self _
      obtain ⟨rw1, hrec, hrt⟩ := ih (j + 1) _ app (rowNoMatch_of_texts htexts h)
      refine ⟨rw1, ?_, hrt.trans htexts⟩
      simp only [processParasLoop, if_neg hb, hnum, hbig, hrec]

theorem processCellsLoop_noMatch (meeting : PyObj) :
    ∀ (n k : Nat) (rw : Row) (app : List Row), RowNoMatch rw →
      ∃ rw1, processCellsLoop meeting n k rw app = .ok (rw1, app) ∧
        rowTexts rw1 = rowTexts rw := by
  intro n
  induction n with
  | zero => intro k rw app _; exact ⟨rw, rfl, rfl⟩
  | succ n' ih =>
    intro k rw app h
    obtain ⟨rw1, hpar, hrt1⟩ :=
      processParasLoop_noMatch meeting k (rw.getD k []).length 0 rw app h
    obtain ⟨rw2, hrec, hrt2⟩ :=
      ih (k + 1) rw1 app (rowNoMatch_of_texts hrt1 h)
    exact ⟨rw2, by simp only [processCellsLoop, hpar, hrec], hrt2.trans hrt1⟩

theorem processRow_noMatch (meeting : PyObj) (r : Row) (h : RowNoMatch r) :
    ∃ r1, processRow meeting r = .ok (r1, []) ∧ rowTexts r1 = rowTexts r :=
  processCellsLoop_noMatch meeting r.length 0 r [] h

theorem processRowsLoop_noMatch (meeting : PyObj) :
    ∀ rows : List Row, (∀ r ∈ rows, RowNoMatch r) →
      ∃ rows1, processRowsLoop meeting rows = .ok (rows1, []) ∧
        tableTexts rows1 = tableTexts rows := by
  intro rows
  induction rows with
  | nil => intro _; exact ⟨[], rfl, rfl⟩
  | cons r rs ih =>
    intro h
    obtain ⟨r1, hr, hrt⟩ := processRow_noMatch meeting r (h r (by simp))
    obtain ⟨rs1, hrs, hrst⟩ := ih fun q hq => h q (List.mem_cons_of_mem _ hq)
    refine ⟨r1 :: rs1, ?_, ?_⟩
    · simp only [processRowsLoop, hr, hrs, List.nil_append]
    · simp only [tableTexts, List.map_cons] at hrst ⊢
      rw [hrt, hrst]

theorem processTable_noMatch (meeting : PyObj) (t : Table)
    (h : ∀ r ∈ t, RowNoMatch r) :
    ∃ t1, processTable meeting t = .ok t1 ∧ tableTexts t1 = tableTexts t := by
  obtain ⟨rows1, hrows, hrt⟩ := processRowsLoop_noMatch meeting t h
  exact ⟨rows1, by simp only [processTable, hrows, List.append_nil], hrt⟩

theorem processTables_noMatch (meeting : PyObj) :
    ∀ ts : List Table, (∀ t ∈ ts, ∀ r ∈ t, RowNoMatch r) →
      ∃ ts1, processTables meeting ts = .ok ts1 ∧
        ts1.map tableTexts = ts.map tableTexts := by
  intro ts
  induction ts with
  | nil => intro _; exact ⟨[], rfl, rfl⟩
  | cons t ts' ih =>
    intro h
    obtain ⟨t1, ht, htt⟩ := processTable_noMatch meeting t (h t (by simp))
    obtain ⟨ts1, hts, htst⟩ := ih fun q hq => h q (List.mem_cons_of_mem _ hq)
    refine ⟨t1 :: ts1, ?_, ?_⟩
    · simp only [processTables, ht, hts]
    · simp only [List.map_cons, htt, htst]

theorem paraText_processParagraph (meeting : PyObj) (p : Para)
    (h : hasPlaceholder (paraText p) = false) :
    paraText (processParagraph meeting p) = paraText p := by
  rw [processParagraph]
  by_cases hb : hasBrace (paraText p) = false
  · rw [if_pos hb]
  · rw [if_neg hb, patternSub_noMatch meeting h]
    exact paraText_mergeRuns_self p

/-- C10: on a document with no remaining placeholder tokens (no match of
the placeholder pattern in any paragraph or table cell), the substitution
pass succeeds and leaves every paragraph text and every table cell text
unchanged. -/
theorem replace_placeholders_idempotent (meeting : PyObj) (doc : Docx)
    (hpars : ∀ p ∈ doc.paragraphs, hasPlaceholder (paraText p) = false)
    (htabs : ∀ t ∈ doc.tables, ∀ r ∈ t, RowNoMatch r) :
    ∃ doc2, replace_placeholders meeting doc = .ok doc2 ∧
      docTexts doc2 = docTexts doc := by
  obtain ⟨ts1, hts, htst⟩ := processTables_noMatch meeting doc.tables htabs
  refine ⟨{ paragraphs := doc.paragraphs.map (processParagraph meeting)
            tables := ts1 }, ?_, ?_⟩
  · simp only [replace_placeholders, hts]
  · simp only [docTexts, htst, List.map_map]
    have hmap : List.map (paraText ∘ processParagraph meeting) doc.paragraphs
        = List.map paraText doc.paragraphs :=
      List.map_congr_left fun p hp => paraText_processParagraph meeting p (hpars p hp)
    rw [hmap]

/-- Witness for C10 on a concrete fully-substituted document. -/
theorem replace_placeholders_idempotent_witness :
    ∃ doc2, replace_placeholders
      [("summary", .vStr "итог")]
      { paragraphs := [["ПРОТОКОЛ от ", "12.10.2026"], ["итог \x7b не токен"]],
        tables := [[[[["1"]], [["итог"]]], [[["2"]], [["конец"]]]]] }
      = .ok doc2 ∧
    docTexts doc2 = docTexts
      { paragraphs := [["ПРОТОКОЛ от ", "12.10.2026"], ["итог \x7b не токен"]],
        tables := [[[[["1"]], [["итог"]]], [[["2"]], [["конец"]]]]] } :=
  replace_placeholders_idempotent _ _ (by decide) (by decide)

/-! ### Row expansion: where the clones end up -/

/-- No paragraph text of the row contains a brace at all. -/
abbrev RowNoBrace (rw : Row) : Prop :=
  ∀ c ∈ rw, ∀ p ∈ c, hasBrace (paraText p) = false

theorem rowNoBrace_getPara {rw : Row} (h : RowNoBrace rw) (k j : Nat) :
    hasBrace (paraText (getPara rw k j)) = false := by
  rw [getPara]
  rcases getD_mem_or rw k [] with hck | hck
  · rcases getD_mem_or (rw.getD k []) j [] with hpj | hpj
    · exact h _ hck _ hpj
    · rw [hpj]; decide
  · rw [hck, show ([] : Cell).getD j [] = [] from rfl]
    decide

theorem processParasLoop_noBrace (meeting : PyObj) (k : Nat) :
    ∀ (n j : Nat) (rw : Row) (app : List Row), RowNoBrace rw →
      processParasLoop meeting k n j rw app = .ok (rw, app) := by
  intro n
  induction n with
  | zero => intro j rw app _; rfl
  | succ n' ih =>
    intro j rw app h
    simp only [processParasLoop, if_pos (rowNoBrace_getPara h k j),
      ih (j + 1) rw app h]

theorem processCellsLoop_noBrace (meeting : PyObj) :
    ∀ (n k : Nat) (rw : Row) (app : List Row), RowNoBrace rw →
      processCellsLoop meeting n k rw app = .ok (rw, app) := by
  intro n
  induction n with
  | zero => intro k rw app _; rfl
  | succ n' ih =>
    intro k rw app h
    simp only [processCellsLoop,
      processParasLoop_noBrace meeting k (rw.getD k []).length 0 rw app h,
      ih (k + 1) rw app h]

theorem processRow_noBrace (meeting : PyObj) (r : Row) (h : RowNoBrace r) :
    processRow meeting r = .ok (r, []) :=
  processCellsLoop_noBrace meeting r.length 0 r [] h

theorem processRowsLoop_noBrace (meeting : PyObj) :
    ∀ rows : List Row, (∀ r ∈ rows, RowNoBrace r) →
      processRowsLoop meeting rows = .ok (rows, []) := by
  intro rows
  induction rows with
  | nil => intro _; rfl
  | cons r rs ih =>
    intro h
    simp only [processRowsLoop, processRow_noBrace meeting r (h r (by simp)),
      ih fun q hq => h q (List.mem_cons_of_mem _ hq), List.append_nil]

theorem processRowsLoop_around (meeting : PyObj) (pre post : List Row)
    (tr tr1 : Row) (clones : List Row)
    (hpre : ∀ r ∈ pre, RowNoBrace r) (hpost : ∀ r ∈ post, RowNoBrace r)
    (htr : processRow meeting tr = .ok (tr1, clones)) :
    processRowsLoop meeting (pre ++ tr :: post)
      = .ok (pre ++ tr1 :: post, clones) := by
  induction pre with
  | nil =>
    simp only [List.nil_append, processRowsLoop, htr,
      processRowsLoop_noBrace meeting post hpost, List.append_nil]
  | cons r pre' ih =>
    simp only [List.cons_append, processRowsLoop,
      processRow_noBrace meeting r (hpre r (by simp)), List.append_eq,
      ih fun q hq => hpre q (List.mem_cons_of_mem _ hq), List.nil_append]

theorem paraText_singleton (s : String) : paraText [s] = s := by
  rw [paraText, join_cons]
  show s ++ String.join [] = s
  exact String.append_empty s

theorem mergeRuns_comp (p : Para) (a b : String) :
    mergeRuns (mergeRuns p a) b = mergeRuns p b := by
  cases p with
  | nil => rfl
  | cons r rs => simp [mergeRuns, List.map_map]

theorem populateRowNum_comp (rw : Row) (a b : String) :
    populateRowNum (populateRowNum rw a) b = populateRowNum rw b := by
  simp only [populateRowNum, List.map_map]
  apply List.map_congr_left
  intro c _
  simp only [Function.comp_apply, List.map_map]
  apply List.map_congr_left
  intro p _
  exact mergeRuns_comp p a b

/-- Each clone is the template populated with its own item. -/
theorem expandNumClones_eq (rw : Row) (t : String) :
    ∀ its : List PyV, expandNumClones (populateRowNum rw t) its
      = its.map fun v => populateRowNum rw v.pyStr := by
  intro its
  induction its generalizing t with
  | nil => rfl
  | cons v vs ih =>
    simp only [expandNumClones, populateRowNum_comp, List.map_cons]
    rw [ih v.pyStr]

theorem paraText_mergeRuns_of_ne {p : Para} (t : String) (h : p ≠ []) :
    paraText (mergeRuns p t) = t := by
  cases p with
  | nil => exact absurd rfl h
  | cons r rs =>
    show paraText (t :: rs.map fun _ => "") = t
    rw [paraText, join_cons, join_map_empty, String.append_empty]

theorem hasBrace_mergeRuns {t : String} (h : hasBrace t = false) (p : Para) :
    hasBrace (paraText (mergeRuns p t)) = false := by
  cases p with
  | nil => rfl
  | cons r rs =>
    rw [paraText_mergeRuns_of_ne t (by simp)]
    exact h

theorem populateRowNum_noBrace {t : String} (h : hasBrace t = false)
    (rw : Row) : RowNoBrace (populateRowNum rw t) := by
  intro c hc p hp
  obtain ⟨c0, _, rfl⟩ := List.mem_map.mp hc
  obtain ⟨p0, _, rfl⟩ := List.mem_map.mp hp
  exact hasBrace_mergeRuns h p0

theorem dropPref_append : ∀ t r : List Char, dropPref t (t ++ r) = some r := by
  intro t
  induction t with
  | nil => intro r; rfl
  | cons p ps ih =>
    intro r
    simp only [List.cons_append, dropPref, if_pos rfl]
    exact ih r

theorem toList_ne_empty {s : String} (h : s ≠ "") : s.toList.isEmpty = false := by
  cases hs : s.toList with
  | nil =>
    exact absurd (String.ext (hs : s.data = [])) h
  | cons c cs => rfl

theorem asString_toList (s : String) : s.toList.asString = s := rfl

theorem dropPref_cons_append (t0 : Char) (ts r : List Char) :
    dropPref (t0 :: ts) (t0 :: (ts ++ r)) = some r := by
  simp only [dropPref, if_pos rfl]
  exact dropPref_append ts r

/-- The marker `\x7btag:key\x7d` is found by `re.search`, with group `key`. -/
theorem findMarker_self (t0 : Char) (ts : List Char) (key : String)
    (hkey : ∀ c ∈ key.toList, isWordChar c = true) (hne : key ≠ "") :
    findMarker (t0 :: ts) ((t0 :: ts) ++ (key.toList ++ [rbrace]))
      = some key := by
  rw [List.cons_append]
  simp only [findMarker, dropPref_cons_append,
    span_word_all key.toList hkey (show isWordChar rbrace = false by decide) [],
    toList_ne_empty hne, Bool.false_eq_true, if_false, eq_self_iff_true,
    if_true, asString_toList]

theorem toList_numMarker (key : String) :
    ("\x7btableNum:" ++ key ++ "\x7d").toList
      = tableNumTag ++ (key.toList ++ [rbrace]) := by
  show ("\x7btableNum:" ++ key ++ "\x7d").data = _
  rw [String.data_append, String.data_append, List.append_assoc]
  rfl

theorem toList_bigMarker (key : String) :
    ("\x7btableBig:" ++ key ++ "\x7d").toList
      = tableBigTag ++ (key.toList ++ [rbrace]) := by
  show ("\x7btableBig:" ++ key ++ "\x7d").data = _
  rw [String.data_append, String.data_append, List.append_assoc]
  rfl

theorem hasBrace_numMarker (key : String) :
    hasBrace ("\x7btableNum:" ++ key ++ "\x7d") = true := by
  rw [hasBrace, toList_numMarker]
  rfl

theorem hasBrace_bigMarker (key : String) :
    hasBrace ("\x7btableBig:" ++ key ++ "\x7d") = true := by
  rw [hasBrace, toList_bigMarker]
  rfl

/-- The in-place rewrite of a `tableNum` template row: the marker paragraph
cleared and then every run-bearing paragraph of the row populated. -/
theorem processRow_tableNum (meeting : PyObj) (key : String)
    (hkey : ∀ c ∈ key.toList, isWordChar c = true) (hne : key ≠ "")
    (c0paras : List Para) (c0tail : List Cell) (it : PyV) (its : List PyV)
    (hitems : (get_value meeting key).items = it :: its)
    (hb : hasBrace it.pyStr = false) :
    processRow meeting ((["\x7btableNum:" ++ key ++ "\x7d"] :: c0paras) :: c0tail)
      = .ok (populateRowNum (([""] :: c0paras) :: c0tail) it.pyStr,
          expandNumClones
            (populateRowNum (([""] :: c0paras) :: c0tail) it.pyStr) its) := by
  have hfm : findMarker tableNumTag
      ("\x7btableNum:" ++ key ++ "\x7d").toList = some key := by
    rw [toList_numMarker]
    exact findMarker_self lbrace "tableNum:".toList key hkey hne
  have hnb0 : RowNoBrace (populateRowNum (([""] :: c0paras) :: c0tail) it.pyStr) :=
    populateRowNum_noBrace hb _
  rw [processRow]
  simp only [List.length_cons, processCellsLoop, List.getD_cons_zero,
    processParasLoop, getPara, paraText_singleton, hasBrace_numMarker,
    Bool.true_eq_false, if_false, hfm, hitems, updateAt, mergeRuns,
    List.map_nil, expandNum,
    processParasLoop_noBrace meeting 0 c0paras.length 1 _ _ hnb0,
    processCellsLoop_noBrace meeting c0tail.length 1 _ _ hnb0,
    List.nil_append]

theorem findMarker_none_no_lbrace (t' : List Char) :
    ∀ cs : List Char, (∀ c ∈ cs, c ≠ lbrace) →
      findMarker (lbrace :: t') cs = none := by
  intro cs
  induction cs with
  | nil => intro _; rfl
  | cons c cs' ih =>
    intro h
    have hc : c ≠ lbrace := h c (by simp)
    have hdp : dropPref (lbrace :: t') (c :: cs') = none := by
      simp only [dropPref, if_neg hc]
    simp only [findMarker, hdp]
    exact ih fun q hq => h q (List.mem_cons_of_mem _ hq)

/-- The `tableNum` search does not fire on a `tableBig` marker. -/
theorem findMarker_num_on_big (key : String)
    (hkey : ∀ c ∈ key.toList, isWordChar c = true) :
    findMarker tableNumTag ("\x7btableBig:" ++ key ++ "\x7d").toList
      = none := by
  rw [toList_bigMarker,
    show tableBigTag ++ (key.toList ++ [rbrace])
      = lbrace :: ("tableBig:".toList ++ (key.toList ++ [rbrace])) from rfl]
  have hdp : dropPref tableNumTag
      (lbrace :: ("tableBig:".toList ++ (key.toList ++ [rbrace]))) = none := rfl
  simp only [findMarker, hdp, List.nil_append]
  have hmem : ∀ c ∈ key.toList ++ [rbrace], c ≠ lbrace := by
    intro c hc
    rcases List.mem_append.mp hc with h3 | h4
    · exact isWordChar_ne_lbrace (hkey c h3)
    · simp only [List.mem_singleton] at h4
      subst h4
      decide
  exact findMarker_none_no_lbrace "tableNum:".toList _ hmem

/-- The in-place rewrite of a four-column `tableBig` template row. -/
theorem processRow_tableBig (meeting : PyObj) (key : String)
    (hkey : ∀ c ∈ key.toList, isWordChar c = true) (hne : key ≠ "")
    (c1 c2 c3 : Cell) (d : PyDict) (rest : List PyV) (clones : List Row)
    (hitems : (get_value meeting key).items = PyV.dict d :: rest)
    (hb1 : hasBrace (dGetD d "суть_задачи" (dGetD d "гипотеза" "")) = false)
    (hb2 : hasBrace (dGetD d "кто_выполняет" (dGetD d "ответственный" "")) = false)
    (hb3 : hasBrace (dGetD d "срок" (dGetD d "дата_проверки" "")) = false)
    (hclones : expandBigClones
      (populateRowBig ([["1"]] :: c1 :: c2 :: c3 :: []) 1 d) 2 rest
      = .ok clones) :
    processRow meeting ([["\x7btableBig:" ++ key ++ "\x7d"]] :: c1 :: c2 :: c3 :: [])
      = .ok (populateRowBig ([["1"]] :: c1 :: c2 :: c3 :: []) 1 d, clones) := by
  have hfm : findMarker tableBigTag
      ("\x7btableBig:" ++ key ++ "\x7d").toList = some key := by
    rw [toList_bigMarker]
    exact findMarker_self lbrace "tableBig:".toList key hkey hne
  have hform : populateRowBig ([["1"]] :: c1 :: c2 :: c3 :: []) 1 d
      = [["1"]] :: [[dGetD d "суть_задачи" (dGetD d "гипотеза" "")]]
        :: [[dGetD d "кто_выполняет" (dGetD d "ответственный" "")]]
        :: [[dGetD d "срок" (dGetD d "дата_проверки" "")]] :: [] := rfl
  have hnb : RowNoBrace
      ([["1"]] :: [[dGetD d "суть_задачи" (dGetD d "гипотеза" "")]]
        :: [[dGetD d "кто_выполняет" (dGetD d "ответственный" "")]]
        :: [[dGetD d "срок" (dGetD d "дата_проверки" "")]] :: []) := by
    intro c hc p hp
    simp only [List.mem_cons, List.not_mem_nil, or_false] at hc
    rcases hc with rfl | rfl | rfl | rfl
    all_goals simp only [List.mem_cons, List.not_mem_nil, or_false] at hp
    all_goals subst hp
    all_goals rw [paraText_singleton]
    · decide
    · exact hb1
    · exact hb2
    · exact hb3
  rw [hform] at hclones
  rw [processRow]
  simp only [List.length_cons, List.length_nil, processCellsLoop,
    List.getD_cons_zero, List.getD_cons_succ, processParasLoop, getPara,
    paraText_singleton, hasBrace_bigMarker, Bool.true_eq_false, if_false,
    findMarker_num_on_big key hkey, hfm, hitems, updateAt, setRun0,
    expandBig, hclones, hform, List.nil_append, hb1, hb2, hb3,
    eq_self_iff_true, if_true]

theorem populateRowBigAux_comp (d d2 : PyDict) (i i2 : Nat) :
    ∀ (l : List Cell) (col : Nat),
      populateRowBigAux d2 i2 col (populateRowBigAux d i col l)
        = populateRowBigAux d2 i2 col l := by
  intro l
  induction l with
  | nil => intro col; rfl
  | cons cell rest ih =>
    intro col
    simp only [populateRowBigAux, ih (col + 1)]
    congr 1
    split_ifs <;> rfl

theorem populateRowBig_comp (rw : Row) (i i2 : Nat) (d d2 : PyDict) :
    populateRowBig (populateRowBig rw i d) i2 d2 = populateRowBig rw i2 d2 :=
  populateRowBigAux_comp d d2 i i2 rw 0

/-- The amended shape of the `tableBig` clone block: one row per remaining
item, populated from the template row with the item dict and its 1-based
index. -/
def bigCloneRows (rw0 : Row) : Nat → List PyDict → List Row
  | _, [] => []
  | i, d :: ds => populateRowBig rw0 i d :: bigCloneRows rw0 (i + 1) ds

theorem expandBigClones_eq (rw0 : Row) :
    ∀ (ds : List PyDict) (i0 i : Nat) (d0 : PyDict),
      expandBigClones (populateRowBig rw0 i0 d0) i (ds.map PyV.dict)
        = .ok (bigCloneRows rw0 i ds) := by
  intro ds
  induction ds with
  | nil => intro i0 i d0; rfl
  | cons d rest ih =>
    intro i0 i d0
    simp only [List.map_cons, expandBigClones, populateRowBig_comp,
      ih i (i + 1) d, bigCloneRows]

/-- C3 (corrected): a table-row expansion over a list field with items
`it :: its` yields one populated row per item, but the clones for items
2..N are appended at the END of the table (after every row that follows
the template row), not as siblings immediately following the template row.
The template row itself is rewritten in place at its original position,
and for N = 1 no extra row is added.  Part one is the `tableNum`
expansion (every run-bearing paragraph of the row receives `str(item)`),
part two the four-column `tableBig` expansion over dict items. -/
theorem table_expansion_layout (meeting : PyObj) (key : String)
    (hkey : ∀ c ∈ key.toList, isWordChar c = true) (hne : key ≠ "")
    (pre post : List Row) (hpre : ∀ r ∈ pre, RowNoBrace r)
    (hpost : ∀ r ∈ post, RowNoBrace r) :
    (∀ (c0paras : List Para) (c0tail : List Cell) (it : PyV) (its : List PyV),
      (get_value meeting key).items = it :: its →
      hasBrace it.pyStr = false →
      processTable meeting
          (pre ++ ((["\x7btableNum:" ++ key ++ "\x7d"] :: c0paras) :: c0tail)
            :: post)
        = .ok ((pre ++ populateRowNum (([""] :: c0paras) :: c0tail) it.pyStr
              :: post)
            ++ its.map fun v =>
                populateRowNum (([""] :: c0paras) :: c0tail) v.pyStr))
    ∧
    (∀ (c1 c2 c3 : Cell) (d : PyDict) (ds : List PyDict),
      (get_value meeting key).items = PyV.dict d :: ds.map PyV.dict →
      hasBrace (dGetD d "суть_задачи" (dGetD d "гипотеза" "")) = false →
      hasBrace (dGetD d "кто_выполняет" (dGetD d "ответственный" "")) = false →
      hasBrace (dGetD d "срок" (dGetD d "дата_проверки" "")) = false →
      processTable meeting
          (pre ++ ([["\x7btableBig:" ++ key ++ "\x7d"]] :: c1 :: c2 :: c3 :: [])
            :: post)
        = .ok ((pre ++ populateRowBig ([["1"]] :: c1 :: c2 :: c3 :: []) 1 d
              :: post)
            ++ bigCloneRows ([["1"]] :: c1 :: c2 :: c3 :: []) 2 ds)) := by
  constructor
  · intro c0paras c0tail it its hitems hb
    have hrow := processRow_tableNum meeting key hkey hne c0paras c0tail it its
      hitems hb
    rw [processTable, processRowsLoop_around meeting pre post _ _ _ hpre hpost hrow,
      expandNumClones_eq]
  · intro c1 c2 c3 d ds hitems hb1 hb2 hb3
    have hcl : expandBigClones
        (populateRowBig ([["1"]] :: c1 :: c2 :: c3 :: []) 1 d) 2 (ds.map PyV.dict)
        = .ok (bigCloneRows ([["1"]] :: c1 :: c2 :: c3 :: []) 2 ds) :=
      expandBigClones_eq _ ds 1 2 d
    have hrow := processRow_tableBig meeting key hkey hne c1 c2 c3 d
      (ds.map PyV.dict) (bigCloneRows ([["1"]] :: c1 :: c2 :: c3 :: []) 2 ds)
      hitems hb1 hb2 hb3 hcl
    rw [processTable, processRowsLoop_around meeting pre post _ _ _ hpre hpost hrow]

/-- C3 counterexample: two items and one following row.  The clone for the
second item lands after the following row (at the end of the table), not
immediately after the template row as the claim states. -/
theorem table_expansion_layout_counterexample :
    replace_placeholders [("decisions", Value.vList [PyV.str "a", PyV.str "b"])]
        { paragraphs := [],
          tables := [[[[["\x7btableNum:decisions\x7d"]]], [[["X"]]]]] }
      = .ok { paragraphs := [],
              tables := [[[[["a"]]], [[["X"]]], [[["b"]]]]] }
    ∧ ([[[["a"]]], [[["X"]]], [[["b"]]]] : Table)
      ≠ [[[["a"]]], [[["b"]]], [[["X"]]]] :=
  ⟨rfl, by decide⟩

/-- Witness for C3 on concrete tables: a two-item `tableNum` expansion over
`decisions` and a two-dict `tableBig` expansion over `tasks`, each with a
brace-free row after the template row. -/
theorem table_expansion_layout_witness :
    processTable [("decisions", Value.vList [PyV.str "a", PyV.str "b"])]
        [[[["\x7btableNum:decisions\x7d"]]], [[["X"]]]]
      = .ok [[[["a"]]], [[["X"]]], [[["b"]]]]
    ∧ processTable [("tasks", Value.vList
          [PyV.dict [("суть_задачи", "СА"), ("кто_выполняет", "ИА"),
             ("срок", "1.1")],
           PyV.dict [("суть_задачи", "СБ"), ("кто_выполняет", "ИБ"),
             ("срок", "2.2")]])]
        [[[["\x7btableBig:tasks\x7d"]], [["a"]], [["b"]], [["c"]]], [[["X"]]]]
      = .ok [[[["1"]], [["СА"]], [["ИА"]], [["1.1"]]],
             [[["X"]]],
             [[["2"]], [["СБ"]], [["ИБ"]], [["2.2"]]]] := by
  constructor
  · exact (table_expansion_layout
      [("decisions", Value.vList [PyV.str "a", PyV.str "b"])] "decisions"
      (by decide) (by decide) [] [[[["X"]]]] (by intro r hr; cases hr)
      (by decide)).1 [] [] (PyV.str "a") [PyV.str "b"] rfl rfl
  · exact (table_expansion_layout
      [("tasks", Value.vList
        [PyV.dict [("суть_задачи", "СА"), ("кто_выполняет", "ИА"),
           ("срок", "1.1")],
         PyV.dict [("суть_задачи", "СБ"), ("кто_выполняет", "ИБ"),
           ("срок", "2.2")]])] "tasks"
      (by decide) (by decide) [] [[[["X"]]]] (by intro r hr; cases hr)
      (by decide)).2 [["a"]] [["b"]] [["c"]]
      [("суть_задачи", "СА"), ("кто_выполняет", "ИА"), ("срок", "1.1")]
      [[("суть_задачи", "СБ"), ("кто_выполняет", "ИБ"), ("срок", "2.2")]]
      rfl rfl rfl rfl

end Aerohack
